import Mathlib

/-!
Verification development for the Task-Diet-Tracker application core.

The development shallowly embeds the data model, the sanitization pipeline
(src/electron/main.ts), the mutation API (src/src/context/AppDataContext.tsx),
the meta-item usage counter (src/src/lib/metaUsage.ts), the date utilities
(src/src/lib/date.ts) and the weight-trend regression
(src/src/components/WeightGraph.tsx).

Modelling conventions:
* JavaScript values reaching the sanitizer are modelled by the inductive
  type Json below.  A missing object field (undefined) is collapsed to
  Json.null; every consumer in the embedded code treats undefined and null
  identically (both fail the typeof/Array.isArray tests that guard each read).
* JavaScript numbers are modelled by the rationals.  All rationals are
  finite, so the Number.isFinite guards of the source are identically true
  in the model; no claim below depends on non-finite float behaviour.
  The string branch of parseFloat is modelled by a plain decimal-literal
  parser (sign, digits, optional fraction); exponents and prefix-junk
  tolerance are not modelled, and no claim below exercises them.
* The nondeterministic id generator makeId()/nextId() is modelled by an
  injective supply of fresh ids indexed by a counter that is threaded
  through the sanitizer; mutation operations take the fresh id and the
  fresh updatedAt timestamp as explicit arguments.
-/

/-- JSON-like runtime value (the sanitizer's unknown input). -/
inductive Json where
  | null : Json
  | bool (b : Bool) : Json
  | num (q : ℚ) : Json
  | str (s : String) : Json
  | arr (items : List Json) : Json
  | obj (fields : List (String × Json)) : Json

namespace Json

/-- Field lookup on a runtime value; anything but an object with the field
present yields null (collapsing JS undefined into null). -/
def get : Json → String → Json
  | .obj fields, key =>
      match fields.find? (fun f => f.fst == key) with
      | some f => f.snd
      | none => .null
  | _, _ => .null

/-- typeof value === "object" && value !== null (arrays included). -/
def isRecord : Json → Bool
  | .obj _ => true
  | .arr _ => true
  | _ => false

end Json

/-- Characters treated as trimmable whitespace. -/
def wsChar (c : Char) : Bool := c.isWhitespace

/-- Drop leading whitespace. -/
def ltrimChars (cs : List Char) : List Char := cs.dropWhile wsChar

/-- Drop trailing whitespace. -/
def rtrimChars (cs : List Char) : List Char := (cs.reverse.dropWhile wsChar).reverse

/-- Trim on character lists: drop leading and trailing whitespace. -/
def trimChars (cs : List Char) : List Char := rtrimChars (ltrimChars cs)

/-- String.prototype.trim of the source. -/
def strTrim (s : String) : String := String.mk (trimChars s.data)

/-! ### Date utilities (src/src/lib/date.ts and the copy in src/electron/main.ts) -/

/-- First month character pair of DISPLAY_DATE_REGEX: (0[1-9]|1[0-2]). -/
def monthCharsOk (m1 m2 : Char) : Bool :=
  (m1 = '0' && '1' ≤ m2 && m2 ≤ '9') || (m1 = '1' && (m2 = '0' || m2 = '1' || m2 = '2'))

/-- Day character pair of DISPLAY_DATE_REGEX: (0[1-9]|[12]\d|3[01]). -/
def dayCharsOk (d1 d2 : Char) : Bool :=
  (d1 = '0' && '1' ≤ d2 && d2 ≤ '9') || ((d1 = '1' || d1 = '2') && d2.isDigit)
    || (d1 = '3' && (d2 = '0' || d2 = '1'))

/-- DISPLAY_DATE_REGEX.test: anchored MM/DD/YYYY with the ranges of the source regex. -/
def isDisplayDate (s : String) : Bool :=
  match s.data with
  | [m1, m2, c1, d1, d2, c2, y1, y2, y3, y4] =>
      c1 = '/' && c2 = '/' && monthCharsOk m1 m2 && dayCharsOk d1 d2
        && y1.isDigit && y2.isDigit && y3.isDigit && y4.isDigit
  | _ => false

/-- displayDateToIso of src/src/lib/date.ts: rewrite MM/DD/YYYY to YYYY-MM-DD,
empty string on invalid input.  (For inputs accepted by the regex the
source's padToTwo is the identity, month and day already being two chars.) -/
def displayDateToIso (s : String) : String :=
  if isDisplayDate s then
    match s.data with
    | [m1, m2, _, d1, d2, _, y1, y2, y3, y4] =>
        String.mk [y1, y2, y3, y4, '-', m1, m2, '-', d1, d2]
    | _ => ""
  else ""

/-! ### Field-level parsers of src/electron/main.ts -/

/-- parseDate: a string matching the display-date regex, else null. -/
def parseDate (v : Json) : Option String :=
  match v with
  | .str s => if isDisplayDate s then some s else none
  | _ => none

/-- parseText: trim strings, map every other value to the empty string. -/
def parseText (v : Json) : String :=
  match v with
  | .str s => strTrim s
  | _ => ""

/-- Decimal-literal fragment of JS parseFloat: optional sign, digits,
optional fraction; none when no digit is present. -/
def parseDecimal (s : String) : Option ℚ :=
  let cs := s.data
  let signAndRest : ℚ × List Char :=
    match cs with
    | '-' :: rest => (-1, rest)
    | '+' :: rest => (1, rest)
    | _ => (1, cs)
  let intPart := signAndRest.2.takeWhile Char.isDigit
  let afterInt := signAndRest.2.dropWhile Char.isDigit
  let fracPart :=
    match afterInt with
    | '.' :: rest => rest.takeWhile Char.isDigit
    | _ => []
  if intPart.isEmpty && fracPart.isEmpty then none
  else
    let intVal : ℚ := (intPart.foldl (fun acc c => acc * 10 + (c.toNat - 48)) 0 : ℕ)
    let fracVal : ℚ :=
      ((fracPart.foldl (fun acc c => acc * 10 + (c.toNat - 48)) 0 : ℕ) : ℚ)
        / ((10 : ℚ) ^ fracPart.length)
    some (signAndRest.1 * (intVal + fracVal))

/-- parseRangedNumber: finite number in range, else in-range numeric string,
else the fallback. -/
def parseRangedNumber (v : Json) (lo hi fb : ℚ) : ℚ :=
  match v with
  | .num q => if lo ≤ q && q ≤ hi then q else fb
  | .str s =>
      if strTrim s ≠ "" then
        match parseDecimal (strTrim s) with
        | some q => if lo ≤ q && q ≤ hi then q else fb
        | none => fb
      else fb
  | _ => fb

/-- parseOptionalNumber: a finite number, else null. -/
def parseOptionalNumber (v : Json) : Option ℚ :=
  match v with
  | .num q => some q
  | _ => none

/-- parseOptionalNonNegativeNumber. -/
def parseOptionalNonNegativeNumber (v : Json) : Option ℚ :=
  match parseOptionalNumber v with
  | none => none
  | some q => if q < 0 then none else some q

/-- parseOptionalRangedNumber. -/
def parseOptionalRangedNumber (v : Json) (lo hi : ℚ) : Option ℚ :=
  match parseOptionalNumber v with
  | none => none
  | some q => if q < lo || hi < q then none else some q

/-- parseStringList: unique trimmed non-empty strings of an array, in
first-seen order (JS Set iteration order is insertion order). -/
def parseStringListAux : List Json → List String → List String
  | [], acc => acc
  | item :: rest, acc =>
      match item with
      | .str s =>
          if strTrim s ≠ "" && !acc.contains (strTrim s) then
            parseStringListAux rest (acc ++ [strTrim s])
          else
            parseStringListAux rest acc
      | _ => parseStringListAux rest acc

def parseStringList (v : Json) : List String :=
  match v with
  | .arr items => parseStringListAux items []
  | _ => []

/-! ### Fresh-id supply (model of makeId) -/

/-- The n-th fresh id of the supply modelling makeId().  Injective in n and
free of whitespace, which is all the development relies on. -/
def freshId (n : ℕ) : String := String.mk ('f' :: 'r' :: 'e' :: 's' :: 'h' :: '-' :: List.replicate n 'x')

/-! ### Data model (src/src/types.ts and the mirrored types in src/electron/main.ts) -/

inductive ThemeMode where
  | light
  | dark
  deriving DecidableEq, Repr

inductive TrackerKey where
  | weight
  | fasting
  | carbs
  | calories
  | workouts
  | steps
  | sleep
  | mood
  | homework
  | cleaning
  | substances
  | entertainment
  deriving DecidableEq, Repr

/-- trackerKeys of src/src/types.ts, in declaration order. -/
def trackerKeyList : List TrackerKey :=
  [.weight, .fasting, .carbs, .calories, .workouts, .steps, .sleep, .mood,
   .homework, .cleaning, .substances, .entertainment]

/-- The raw-document key naming each tracker category. -/
def trackerKeyName : TrackerKey → String
  | .weight => "weight"
  | .fasting => "fasting"
  | .carbs => "carbs"
  | .calories => "calories"
  | .workouts => "workouts"
  | .steps => "steps"
  | .sleep => "sleep"
  | .mood => "mood"
  | .homework => "homework"
  | .cleaning => "cleaning"
  | .substances => "substances"
  | .entertainment => "entertainment"

inductive MetaListKey where
  | workouts
  | subjects
  | children
  | chores
  | substances
  | entertainment
  deriving DecidableEq, Repr

structure MetaItem where
  id : String
  name : String
  deriving DecidableEq, Repr

structure MetaLists where
  workouts : List MetaItem
  subjects : List MetaItem
  children : List MetaItem
  chores : List MetaItem
  substances : List MetaItem
  entertainment : List MetaItem
  deriving DecidableEq, Repr

def MetaLists.get (m : MetaLists) : MetaListKey → List MetaItem
  | .workouts => m.workouts
  | .subjects => m.subjects
  | .children => m.children
  | .chores => m.chores
  | .substances => m.substances
  | .entertainment => m.entertainment

def MetaLists.set (m : MetaLists) : MetaListKey → List MetaItem → MetaLists
  | .workouts, l => { m with workouts := l }
  | .subjects, l => { m with subjects := l }
  | .children, l => { m with children := l }
  | .chores, l => { m with chores := l }
  | .substances, l => { m with substances := l }
  | .entertainment, l => { m with entertainment := l }

structure WorkoutActivity where
  metaId : String
  minutes : ℚ
  deriving DecidableEq, Repr

/-- The entry payloads mirror the NewTrackerEntryByKey types (entry shape
without the id). -/
structure WeightPayload where
  date : String
  weightLbs : ℚ
  deriving DecidableEq, Repr

structure FastingPayload where
  date : String
  hours : ℚ
  deriving DecidableEq, Repr

structure CarbsPayload where
  date : String
  carbs : ℚ
  notes : String
  deriving DecidableEq, Repr

structure CaloriesPayload where
  date : String
  calories : ℚ
  notes : String
  deriving DecidableEq, Repr

structure WorkoutPayload where
  date : String
  activities : List WorkoutActivity
  deriving DecidableEq, Repr

structure StepsPayload where
  date : String
  steps : ℚ
  deriving DecidableEq, Repr

structure SleepPayload where
  date : String
  sleepTime : String
  wakeTime : String
  deriving DecidableEq, Repr

structure MoodPayload where
  date : String
  moodStart : ℚ
  moodEnd : ℚ
  notes : String
  deriving DecidableEq, Repr

structure HomeworkPayload where
  date : String
  subjectId : String
  childId : String
  minutes : ℚ
  notes : String
  deriving DecidableEq, Repr

structure ChorePayload where
  date : String
  choreIds : List String
  notes : String
  deriving DecidableEq, Repr

structure SubstancePayload where
  date : String
  substanceIds : List String
  notes : String
  deriving DecidableEq, Repr

structure EntertainmentPayload where
  date : String
  activities : List WorkoutActivity
  deriving DecidableEq, Repr

structure WeightEntry extends WeightPayload where
  id : String
  deriving DecidableEq, Repr

structure FastingEntry extends FastingPayload where
  id : String
  deriving DecidableEq, Repr

structure CarbsEntry extends CarbsPayload where
  id : String
  deriving DecidableEq, Repr

structure CaloriesEntry extends CaloriesPayload where
  id : String
  deriving DecidableEq, Repr

structure WorkoutEntry extends WorkoutPayload where
  id : String
  deriving DecidableEq, Repr

structure StepsEntry extends StepsPayload where
  id : String
  deriving DecidableEq, Repr

structure SleepEntry extends SleepPayload where
  id : String
  deriving DecidableEq, Repr

structure MoodEntry extends MoodPayload where
  id : String
  deriving DecidableEq, Repr

structure HomeworkEntry extends HomeworkPayload where
  id : String
  deriving DecidableEq, Repr

structure ChoreEntry extends ChorePayload where
  id : String
  deriving DecidableEq, Repr

structure SubstanceEntry extends SubstancePayload where
  id : String
  deriving DecidableEq, Repr

structure EntertainmentEntry extends EntertainmentPayload where
  id : String
  deriving DecidableEq, Repr

/-- Entry type of each tracker category. -/
def EntryOf : TrackerKey → Type
  | .weight => WeightEntry
  | .fasting => FastingEntry
  | .carbs => CarbsEntry
  | .calories => CaloriesEntry
  | .workouts => WorkoutEntry
  | .steps => StepsEntry
  | .sleep => SleepEntry
  | .mood => MoodEntry
  | .homework => HomeworkEntry
  | .cleaning => ChoreEntry
  | .substances => SubstanceEntry
  | .entertainment => EntertainmentEntry

instance instDecidableEqEntryOf : (k : TrackerKey) → DecidableEq (EntryOf k)
  | .weight => inferInstanceAs (DecidableEq WeightEntry)
  | .fasting => inferInstanceAs (DecidableEq FastingEntry)
  | .carbs => inferInstanceAs (DecidableEq CarbsEntry)
  | .calories => inferInstanceAs (DecidableEq CaloriesEntry)
  | .workouts => inferInstanceAs (DecidableEq WorkoutEntry)
  | .steps => inferInstanceAs (DecidableEq StepsEntry)
  | .sleep => inferInstanceAs (DecidableEq SleepEntry)
  | .mood => inferInstanceAs (DecidableEq MoodEntry)
  | .homework => inferInstanceAs (DecidableEq HomeworkEntry)
  | .cleaning => inferInstanceAs (DecidableEq ChoreEntry)
  | .substances => inferInstanceAs (DecidableEq SubstanceEntry)
  | .entertainment => inferInstanceAs (DecidableEq EntertainmentEntry)

/-- Payload (entry without id) of each tracker category. -/
def PayloadOf : TrackerKey → Type
  | .weight => WeightPayload
  | .fasting => FastingPayload
  | .carbs => CarbsPayload
  | .calories => CaloriesPayload
  | .workouts => WorkoutPayload
  | .steps => StepsPayload
  | .sleep => SleepPayload
  | .mood => MoodPayload
  | .homework => HomeworkPayload
  | .cleaning => ChorePayload
  | .substances => SubstancePayload
  | .entertainment => EntertainmentPayload

def entryId : (k : TrackerKey) → EntryOf k → String
  | .weight, e => e.id
  | .fasting, e => e.id
  | .carbs, e => e.id
  | .calories, e => e.id
  | .workouts, e => e.id
  | .steps, e => e.id
  | .sleep, e => e.id
  | .mood, e => e.id
  | .homework, e => e.id
  | .cleaning, e => e.id
  | .substances, e => e.id
  | .entertainment, e => e.id

def entryDate : (k : TrackerKey) → EntryOf k → String
  | .weight, e => e.date
  | .fasting, e => e.date
  | .carbs, e => e.date
  | .calories, e => e.date
  | .workouts, e => e.date
  | .steps, e => e.date
  | .sleep, e => e.date
  | .mood, e => e.date
  | .homework, e => e.date
  | .cleaning, e => e.date
  | .substances, e => e.date
  | .entertainment, e => e.date

def payloadDate : (k : TrackerKey) → PayloadOf k → String
  | .weight, p => p.date
  | .fasting, p => p.date
  | .carbs, p => p.date
  | .calories, p => p.date
  | .workouts, p => p.date
  | .steps, p => p.date
  | .sleep, p => p.date
  | .mood, p => p.date
  | .homework, p => p.date
  | .cleaning, p => p.date
  | .substances, p => p.date
  | .entertainment, p => p.date

/-- id: nextId() followed by the spread of the id-less payload. -/
def mkEntry : (k : TrackerKey) → String → PayloadOf k → EntryOf k
  | .weight, i, p => { toWeightPayload := p, id := i }
  | .fasting, i, p => { toFastingPayload := p, id := i }
  | .carbs, i, p => { toCarbsPayload := p, id := i }
  | .calories, i, p => { toCaloriesPayload := p, id := i }
  | .workouts, i, p => { toWorkoutPayload := p, id := i }
  | .steps, i, p => { toStepsPayload := p, id := i }
  | .sleep, i, p => { toSleepPayload := p, id := i }
  | .mood, i, p => { toMoodPayload := p, id := i }
  | .homework, i, p => { toHomeworkPayload := p, id := i }
  | .cleaning, i, p => { toChorePayload := p, id := i }
  | .substances, i, p => { toSubstancePayload := p, id := i }
  | .entertainment, i, p => { toEntertainmentPayload := p, id := i }

structure Trackers where
  weight : List WeightEntry
  fasting : List FastingEntry
  carbs : List CarbsEntry
  calories : List CaloriesEntry
  workouts : List WorkoutEntry
  steps : List StepsEntry
  sleep : List SleepEntry
  mood : List MoodEntry
  homework : List HomeworkEntry
  cleaning : List ChoreEntry
  substances : List SubstanceEntry
  entertainment : List EntertainmentEntry
  deriving DecidableEq, Repr

def Trackers.get (t : Trackers) : (k : TrackerKey) → List (EntryOf k)
  | .weight => t.weight
  | .fasting => t.fasting
  | .carbs => t.carbs
  | .calories => t.calories
  | .workouts => t.workouts
  | .steps => t.steps
  | .sleep => t.sleep
  | .mood => t.mood
  | .homework => t.homework
  | .cleaning => t.cleaning
  | .substances => t.substances
  | .entertainment => t.entertainment

def Trackers.set (t : Trackers) : (k : TrackerKey) → List (EntryOf k) → Trackers
  | .weight, l => { t with weight := l }
  | .fasting, l => { t with fasting := l }
  | .carbs, l => { t with carbs := l }
  | .calories, l => { t with calories := l }
  | .workouts, l => { t with workouts := l }
  | .steps, l => { t with steps := l }
  | .sleep, l => { t with sleep := l }
  | .mood, l => { t with mood := l }
  | .homework, l => { t with homework := l }
  | .cleaning, l => { t with cleaning := l }
  | .substances, l => { t with substances := l }
  | .entertainment, l => { t with entertainment := l }

structure AppSettings where
  theme : ThemeMode
  startingWeightLbs : Option ℚ
  dietStartDate : Option String
  weightLossPerWeekLbs : Option ℚ
  weightGoalLbs : Option ℚ
  carbLimitPerDay : Option ℚ
  calorieLimitPerDay : Option ℚ
  dailyStepsGoal : Option ℚ
  desiredSleepHours : Option ℚ
  deriving DecidableEq, Repr

structure AppData where
  version : ℕ
  settings : AppSettings
  meta : MetaLists
  trackers : Trackers
  updatedAt : String
  deriving DecidableEq, Repr

/-- createDefaultData, with the freshly generated updatedAt timestamp as an
explicit argument. -/
def createDefaultData (now : String) : AppData where
  version := 2
  settings :=
    { theme := .light
      startingWeightLbs := none
      dietStartDate := none
      weightLossPerWeekLbs := none
      weightGoalLbs := none
      carbLimitPerDay := none
      calorieLimitPerDay := none
      dailyStepsGoal := none
      desiredSleepHours := none }
  meta :=
    { workouts := [], subjects := [], children := [], chores := []
      substances := [], entertainment := [] }
  trackers :=
    { weight := [], fasting := [], carbs := [], calories := [], workouts := []
      steps := [], sleep := [], mood := [], homework := [], cleaning := []
      substances := [], entertainment := [] }
  updatedAt := now

/-! ### Sanitization pipeline (src/electron/main.ts, sanitizeData and helpers) -/

structure BaseEntry where
  id : String
  date : String
  deriving DecidableEq, Repr

/-- parseBaseEntry, threading the fresh-id counter: nothing but a record with
a regex-valid date survives; a present non-empty-trim id is kept verbatim,
otherwise a fresh id is drawn from the supply. -/
def parseBaseEntry (entry : Json) (n : ℕ) : Option (BaseEntry × ℕ) :=
  if !entry.isRecord then none
  else
    match parseDate (entry.get "date") with
    | none => none
    | some date =>
        match entry.get "id" with
        | .str s =>
            if strTrim s ≠ "" then some ({ id := s, date := date }, n)
            else some ({ id := freshId n, date := date }, n + 1)
        | _ => some ({ id := freshId n, date := date }, n + 1)

/-- The id choice of sanitizeMetaList: keep a non-empty-trim string id
verbatim, otherwise draw a fresh one (advancing the supply). -/
def metaItemId (item : Json) (n : ℕ) : String × ℕ :=
  match item.get "id" with
  | .str s => if strTrim s ≠ "" then (s, n) else (freshId n, n + 1)
  | _ => (freshId n, n + 1)

/-- sanitizeMetaList: keep records with a non-empty trimmed name, keep or
generate the id, de-duplicate by id with first occurrence winning (the Map
in the source is only written when the id is absent), in input order. -/
def sanitizeMetaListAux : List Json → List MetaItem → ℕ → List MetaItem × ℕ
  | [], acc, n => (acc, n)
  | item :: rest, acc, n =>
      if !item.isRecord then sanitizeMetaListAux rest acc n
      else
        let name := parseText (item.get "name")
        if name = "" then sanitizeMetaListAux rest acc n
        else
          let idAndN := metaItemId item n
          if acc.any (fun it => it.id = idAndN.1) then
            sanitizeMetaListAux rest acc idAndN.2
          else
            sanitizeMetaListAux rest (acc ++ [{ id := idAndN.1, name := name }]) idAndN.2

def sanitizeMetaList (v : Json) (n : ℕ) : List MetaItem × ℕ :=
  match v with
  | .arr items => sanitizeMetaListAux items [] n
  | _ => ([], n)

/-- getRawEntryList: the raw array under a trackers key, or empty. -/
def getRawEntryList (trackersRaw : Json) (key : String) : List Json :=
  match trackersRaw.get key with
  | .arr items => items
  | _ => []

/-- The map-then-filter shape shared by the per-category reconstruction
blocks of sanitizeData: each raw element goes through parseBaseEntry
(dropping it on failure) and then through the category-specific field
builder. -/
def sanitizeEntryList (build : Json → BaseEntry → α) :
    List Json → ℕ → List α × ℕ
  | [], n => ([], n)
  | e :: rest, n =>
      match parseBaseEntry e n with
      | none => sanitizeEntryList build rest n
      | some (base, n') =>
          let tail := sanitizeEntryList build rest n'
          (build e base :: tail.1, tail.2)

/-- The activities sub-list reconstruction shared by the workouts and
entertainment blocks. -/
def parseActivityItem (a : Json) : Option WorkoutActivity :=
  if !a.isRecord then none
  else
    let metaId := parseText (a.get "metaId")
    if metaId = "" then none
    else some { metaId := metaId, minutes := parseRangedNumber (a.get "minutes") 0 1440 0 }

def parseActivities (v : Json) : List WorkoutActivity :=
  match v with
  | .arr items => items.filterMap parseActivityItem
  | _ => []

def buildWeight (e : Json) (b : BaseEntry) : WeightEntry :=
  { id := b.id, date := b.date, weightLbs := parseRangedNumber (e.get "weightLbs") 0 3000 0 }

def buildFasting (e : Json) (b : BaseEntry) : FastingEntry :=
  { id := b.id, date := b.date, hours := parseRangedNumber (e.get "hours") 0 24 0 }

def buildCarbs (e : Json) (b : BaseEntry) : CarbsEntry :=
  { id := b.id, date := b.date, carbs := parseRangedNumber (e.get "carbs") 0 500 0,
    notes := parseText (e.get "notes") }

def buildCalories (e : Json) (b : BaseEntry) : CaloriesEntry :=
  { id := b.id, date := b.date, calories := parseRangedNumber (e.get "calories") 0 50000 0,
    notes := parseText (e.get "notes") }

def buildWorkout (e : Json) (b : BaseEntry) : WorkoutEntry :=
  { id := b.id, date := b.date, activities := parseActivities (e.get "activities") }

def buildSteps (e : Json) (b : BaseEntry) : StepsEntry :=
  { id := b.id, date := b.date, steps := parseRangedNumber (e.get "steps") 0 200000 0 }

def buildSleep (e : Json) (b : BaseEntry) : SleepEntry :=
  { id := b.id, date := b.date, sleepTime := parseText (e.get "sleepTime"),
    wakeTime := parseText (e.get "wakeTime") }

def buildMood (e : Json) (b : BaseEntry) : MoodEntry :=
  { id := b.id, date := b.date, moodStart := parseRangedNumber (e.get "moodStart") 0 10 0,
    moodEnd := parseRangedNumber (e.get "moodEnd") 0 10 0, notes := parseText (e.get "notes") }

def buildHomework (e : Json) (b : BaseEntry) : HomeworkEntry :=
  { id := b.id, date := b.date, subjectId := parseText (e.get "subjectId"),
    childId := parseText (e.get "childId"),
    minutes := parseRangedNumber (e.get "minutes") 0 1440 0,
    notes := parseText (e.get "notes") }

def buildChore (e : Json) (b : BaseEntry) : ChoreEntry :=
  { id := b.id, date := b.date, choreIds := parseStringList (e.get "choreIds"),
    notes := parseText (e.get "notes") }

def buildSubstance (e : Json) (b : BaseEntry) : SubstanceEntry :=
  { id := b.id, date := b.date, substanceIds := parseStringList (e.get "substanceIds"),
    notes := parseText (e.get "notes") }

/-- The entertainment block: prefer the reconstructed activities list; when
it is empty fall back to the deprecated entertainmentIds field, each legacy
id contributing an activity with 0 minutes. -/
def buildEntertainment (e : Json) (b : BaseEntry) : EntertainmentEntry :=
  let activities := parseActivities (e.get "activities")
  let legacyIds := parseStringList (e.get "entertainmentIds")
  let legacyActivities := legacyIds.map (fun metaId => { metaId := metaId, minutes := 0 : WorkoutActivity })
  { id := b.id, date := b.date,
    activities := if activities.length > 0 then activities else legacyActivities }

/-- The settings block of sanitizeData. -/
def sanitizeSettings (settingsRaw : Json) : AppSettings :=
  { theme :=
      match settingsRaw.get "theme" with
      | .str s => if s = "dark" then .dark else .light
      | _ => .light
    startingWeightLbs := parseOptionalNonNegativeNumber (settingsRaw.get "startingWeightLbs")
    dietStartDate := parseDate (settingsRaw.get "dietStartDate")
    weightLossPerWeekLbs := parseOptionalNonNegativeNumber (settingsRaw.get "weightLossPerWeekLbs")
    weightGoalLbs := parseOptionalNonNegativeNumber (settingsRaw.get "weightGoalLbs")
    carbLimitPerDay := parseOptionalNonNegativeNumber (settingsRaw.get "carbLimitPerDay")
    calorieLimitPerDay := parseOptionalNonNegativeNumber (settingsRaw.get "calorieLimitPerDay")
    dailyStepsGoal := parseOptionalNonNegativeNumber (settingsRaw.get "dailyStepsGoal")
    desiredSleepHours := parseOptionalRangedNumber (settingsRaw.get "desiredSleepHours") 3 12 }

/-- The meta block of sanitizeData, threading the fresh-id counter in
source order. -/
def sanitizeMetaLists (metaRaw : Json) (n : ℕ) : MetaLists × ℕ :=
  let metaWorkouts := sanitizeMetaList (metaRaw.get "workouts") n
  let metaSubjects := sanitizeMetaList (metaRaw.get "subjects") metaWorkouts.2
  let metaChildren := sanitizeMetaList (metaRaw.get "children") metaSubjects.2
  let metaChores := sanitizeMetaList (metaRaw.get "chores") metaChildren.2
  let metaSubstances := sanitizeMetaList (metaRaw.get "substances") metaChores.2
  let metaEntertainment := sanitizeMetaList (metaRaw.get "entertainment") metaSubstances.2
  ({ workouts := metaWorkouts.1
     subjects := metaSubjects.1
     children := metaChildren.1
     chores := metaChores.1
     substances := metaSubstances.1
     entertainment := metaEntertainment.1 }, metaEntertainment.2)

/-- The trackers block of sanitizeData, threading the fresh-id counter in
source order. -/
def sanitizeTrackers (trackersRaw : Json) (n : ℕ) : Trackers × ℕ :=
  let weight := sanitizeEntryList buildWeight (getRawEntryList trackersRaw "weight") n
  let fasting := sanitizeEntryList buildFasting (getRawEntryList trackersRaw "fasting") weight.2
  let carbs := sanitizeEntryList buildCarbs (getRawEntryList trackersRaw "carbs") fasting.2
  let calories := sanitizeEntryList buildCalories (getRawEntryList trackersRaw "calories") carbs.2
  let workouts := sanitizeEntryList buildWorkout (getRawEntryList trackersRaw "workouts") calories.2
  let steps := sanitizeEntryList buildSteps (getRawEntryList trackersRaw "steps") workouts.2
  let sleep := sanitizeEntryList buildSleep (getRawEntryList trackersRaw "sleep") steps.2
  let mood := sanitizeEntryList buildMood (getRawEntryList trackersRaw "mood") sleep.2
  let homework := sanitizeEntryList buildHomework (getRawEntryList trackersRaw "homework") mood.2
  let cleaning := sanitizeEntryList buildChore (getRawEntryList trackersRaw "cleaning") homework.2
  let substances := sanitizeEntryList buildSubstance (getRawEntryList trackersRaw "substances") cleaning.2
  let entertainment := sanitizeEntryList buildEntertainment (getRawEntryList trackersRaw "entertainment") substances.2
  ({ weight := weight.1
     fasting := fasting.1
     carbs := carbs.1
     calories := calories.1
     workouts := workouts.1
     steps := steps.1
     sleep := sleep.1
     mood := mood.1
     homework := homework.1
     cleaning := cleaning.1
     substances := substances.1
     entertainment := entertainment.1 }, entertainment.2)

/-- sanitizeData: total normalization of an arbitrary runtime value to a
well-formed document.  The fresh-id counter is threaded in source order:
the six meta lists first, then the twelve tracker categories. -/
def sanitizeData (v : Json) (now : String) (n : ℕ) : AppData × ℕ :=
  if !v.isRecord then (createDefaultData now, n)
  else
    let settingsRaw := if (v.get "settings").isRecord then v.get "settings" else .obj []
    let metaRaw := if (v.get "meta").isRecord then v.get "meta" else .obj []
    let trackersRaw := if (v.get "trackers").isRecord then v.get "trackers" else .obj []
    let meta := sanitizeMetaLists metaRaw n
    let trackers := sanitizeTrackers trackersRaw meta.2
    ({ version := 2
       settings := sanitizeSettings settingsRaw
       meta := meta.1
       trackers := trackers.1
       updatedAt := now }, trackers.2)

/-! ### Mutation API (src/src/context/AppDataContext.tsx) -/

/-- stamp: refresh updatedAt; the fresh timestamp is an explicit argument. -/
def stamp (d : AppData) (now : String) : AppData := { d with updatedAt := now }

/-- addTrackerEntry: reject payloads without a regex-valid display date,
otherwise prepend the payload with a fresh id to that category's list. -/
def addTrackerEntry (d : AppData) (k : TrackerKey) (p : PayloadOf k) (fresh now : String) : AppData :=
  if isDisplayDate (payloadDate k p) then
    stamp { d with trackers := d.trackers.set k (mkEntry k fresh p :: d.trackers.get k) } now
  else d

/-- removeTrackerEntry: filter the entries with the given id out of that
category's list (the document is re-stamped unconditionally, as in the source). -/
def removeTrackerEntry (d : AppData) (k : TrackerKey) (eid now : String) : AppData :=
  stamp { d with
    trackers := d.trackers.set k ((d.trackers.get k).filter (fun e => entryId k e ≠ eid)) } now

/-- JS lexicographic string comparison (code-unit order; code points and
UTF-16 code units agree on the characters of ISO date strings). -/
def strLtb : List Char → List Char → Bool
  | [], [] => false
  | [], _ :: _ => true
  | _ :: _, [] => false
  | x :: xs, y :: ys => if x = y then strLtb xs ys else decide (x < y)

def strLt (a b : String) : Bool := strLtb a.data b.data

/-- The per-category keep-filter of clearTrackerEntriesBefore:
displayDateToIso(entry.date) >= cutoffIsoDate, as JS lexicographic string
comparison. -/
def remainingAfterCutoff (d : AppData) (cutoffIso : String) (k : TrackerKey) : List (EntryOf k) :=
  (d.trackers.get k).filter (fun e => !strLt (displayDateToIso (entryDate k e)) cutoffIso)

/-- clearTrackerEntriesBefore: invalid cutoff is a no-op returning 0;
otherwise every category keeps exactly the entries whose ISO date is at
least the cutoff ISO date, the removed entries are counted across all
categories, and a 0 count leaves the document untouched. -/
def clearTrackerEntriesBefore (d : AppData) (beforeDate now : String) : AppData × ℕ :=
  if !isDisplayDate beforeDate then (d, 0)
  else
    let cutoffIso := displayDateToIso beforeDate
    let removedCount :=
      (trackerKeyList.map
        (fun k => (d.trackers.get k).length - (remainingAfterCutoff d cutoffIso k).length)).sum
    if removedCount = 0 then (d, 0)
    else
      (stamp { d with trackers :=
        { weight := remainingAfterCutoff d cutoffIso .weight
          fasting := remainingAfterCutoff d cutoffIso .fasting
          carbs := remainingAfterCutoff d cutoffIso .carbs
          calories := remainingAfterCutoff d cutoffIso .calories
          workouts := remainingAfterCutoff d cutoffIso .workouts
          steps := remainingAfterCutoff d cutoffIso .steps
          sleep := remainingAfterCutoff d cutoffIso .sleep
          mood := remainingAfterCutoff d cutoffIso .mood
          homework := remainingAfterCutoff d cutoffIso .homework
          cleaning := remainingAfterCutoff d cutoffIso .cleaning
          substances := remainingAfterCutoff d cutoffIso .substances
          entertainment := remainingAfterCutoff d cutoffIso .entertainment } } now,
       removedCount)

/-! ### Usage counting (src/src/lib/metaUsage.ts) -/

def getMetaItemUsageCount (d : AppData) (k : MetaListKey) (itemId : String) : ℕ :=
  match k with
  | .workouts =>
      (d.trackers.workouts.filter (fun e => e.activities.any (fun a => a.metaId = itemId))).length
  | .subjects => (d.trackers.homework.filter (fun e => e.subjectId = itemId)).length
  | .children => (d.trackers.homework.filter (fun e => e.childId = itemId)).length
  | .chores => (d.trackers.cleaning.filter (fun e => e.choreIds.contains itemId)).length
  | .substances => (d.trackers.substances.filter (fun e => e.substanceIds.contains itemId)).length
  | .entertainment =>
      (d.trackers.entertainment.filter (fun e => e.activities.any (fun a => a.metaId = itemId))).length

structure RemoveMetaResult where
  ok : Bool
  reason : Option String
  deriving DecidableEq, Repr

/-- removeMetaItem: refuse while the usage count is positive, refuse when
the id is absent, otherwise remove the item and stamp. -/
def removeMetaItem (d : AppData) (k : MetaListKey) (itemId now : String) : AppData × RemoveMetaResult :=
  if getMetaItemUsageCount d k itemId > 0 then
    (d, { ok := false, reason := some "This item is used by existing entries and cannot be deleted." })
  else
    let nextItems := (d.meta.get k).filter (fun item => item.id ≠ itemId)
    if nextItems.length = (d.meta.get k).length then
      (d, { ok := false, reason := some "Item was not found." })
    else
      (stamp { d with meta := d.meta.set k nextItems } now, { ok := true, reason := none })

/-! ### Weight-trend regression (src/src/components/WeightGraph.tsx) -/

structure RegressionPoint where
  dateMs : ℚ
  weight : ℚ
  deriving DecidableEq, Repr

def msPerWeek : ℚ := 1000 * 60 * 60 * 24 * 7

/-- Elapsed weeks since the first sample, paired with the weight. -/
def regressionSamples (points : List RegressionPoint) : List (ℚ × ℚ) :=
  match points with
  | [] => []
  | p0 :: _ => points.map (fun p => ((p.dateMs - p0.dateMs) / msPerWeek, p.weight))

/-- The slope denominator: sum of squared x-deviations from the mean. -/
def regressionDenominator (points : List RegressionPoint) : ℚ :=
  let samples := regressionSamples points
  let n : ℚ := samples.length
  let meanX := (samples.map Prod.fst).sum / n
  (samples.map (fun s => (s.1 - meanX) * (s.1 - meanX))).sum

/-- computeRegressionLossPerWeek: ordinary least squares slope over
(elapsed weeks, weight), negated; null on fewer than two points or a
non-positive denominator.  (Floats are modelled by rationals, so the
Number.isFinite guards of the source hold identically.) -/
def computeRegressionLossPerWeek (points : List RegressionPoint) : Option ℚ :=
  if points.length < 2 then none
  else
    let samples := regressionSamples points
    let n : ℚ := samples.length
    let meanX := (samples.map Prod.fst).sum / n
    let meanY := (samples.map Prod.snd).sum / n
    let numerator := (samples.map (fun s => (s.1 - meanX) * (s.2 - meanY))).sum
    if regressionDenominator points ≤ 0 then none
    else some (-(numerator / regressionDenominator points))

/-! ### Re-encoding a document as a runtime value (JSON.stringify / IPC image
of an AppData, used to state idempotence of the sanitizer). -/

def encodeOptionalNumber : Option ℚ → Json
  | none => .null
  | some q => .num q

def encodeOptionalString : Option String → Json
  | none => .null
  | some s => .str s

def encodeTheme : ThemeMode → Json
  | .light => .str "light"
  | .dark => .str "dark"

def encodeSettings (s : AppSettings) : Json :=
  .obj [("theme", encodeTheme s.theme),
        ("startingWeightLbs", encodeOptionalNumber s.startingWeightLbs),
        ("dietStartDate", encodeOptionalString s.dietStartDate),
        ("weightLossPerWeekLbs", encodeOptionalNumber s.weightLossPerWeekLbs),
        ("weightGoalLbs", encodeOptionalNumber s.weightGoalLbs),
        ("carbLimitPerDay", encodeOptionalNumber s.carbLimitPerDay),
        ("calorieLimitPerDay", encodeOptionalNumber s.calorieLimitPerDay),
        ("dailyStepsGoal", encodeOptionalNumber s.dailyStepsGoal),
        ("desiredSleepHours", encodeOptionalNumber s.desiredSleepHours)]

def encodeMetaItem (i : MetaItem) : Json :=
  .obj [("id", .str i.id), ("name", .str i.name)]

def encodeMeta (m : MetaLists) : Json :=
  .obj [("workouts", .arr (m.workouts.map encodeMetaItem)),
        ("subjects", .arr (m.subjects.map encodeMetaItem)),
        ("children", .arr (m.children.map encodeMetaItem)),
        ("chores", .arr (m.chores.map encodeMetaItem)),
        ("substances", .arr (m.substances.map encodeMetaItem)),
        ("entertainment", .arr (m.entertainment.map encodeMetaItem))]

def encodeActivity (a : WorkoutActivity) : Json :=
  .obj [("metaId", .str a.metaId), ("minutes", .num a.minutes)]

def encodeWeightEntry (e : WeightEntry) : Json :=
  .obj [("id", .str e.id), ("date", .str e.date), ("weightLbs", .num e.weightLbs)]

def encodeFastingEntry (e : FastingEntry) : Json :=
  .obj [("id", .str e.id), ("date", .str e.date), ("hours", .num e.hours)]

def encodeCarbsEntry (e : CarbsEntry) : Json :=
  .obj [("id", .str e.id), ("date", .str e.date), ("carbs", .num e.carbs), ("notes", .str e.notes)]

def encodeCaloriesEntry (e : CaloriesEntry) : Json :=
  .obj [("id", .str e.id), ("date", .str e.date), ("calories", .num e.calories), ("notes", .str e.notes)]

def encodeWorkoutEntry (e : WorkoutEntry) : Json :=
  .obj [("id", .str e.id), ("date", .str e.date), ("activities", .arr (e.activities.map encodeActivity))]

def encodeStepsEntry (e : StepsEntry) : Json :=
  .obj [("id", .str e.id), ("date", .str e.date), ("steps", .num e.steps)]

def encodeSleepEntry (e : SleepEntry) : Json :=
  .obj [("id", .str e.id), ("date", .str e.date), ("sleepTime", .str e.sleepTime),
        ("wakeTime", .str e.wakeTime)]

def encodeMoodEntry (e : MoodEntry) : Json :=
  .obj [("id", .str e.id), ("date", .str e.date), ("moodStart", .num e.moodStart),
        ("moodEnd", .num e.moodEnd), ("notes", .str e.notes)]

def encodeHomeworkEntry (e : HomeworkEntry) : Json :=
  .obj [("id", .str e.id), ("date", .str e.date), ("subjectId", .str e.subjectId),
        ("childId", .str e.childId), ("minutes", .num e.minutes), ("notes", .str e.notes)]

def encodeChoreEntry (e : ChoreEntry) : Json :=
  .obj [("id", .str e.id), ("date", .str e.date),
        ("choreIds", .arr (e.choreIds.map Json.str)), ("notes", .str e.notes)]

def encodeSubstanceEntry (e : SubstanceEntry) : Json :=
  .obj [("id", .str e.id), ("date", .str e.date),
        ("substanceIds", .arr (e.substanceIds.map Json.str)), ("notes", .str e.notes)]

def encodeEntertainmentEntry (e : EntertainmentEntry) : Json :=
  .obj [("id", .str e.id), ("date", .str e.date), ("activities", .arr (e.activities.map encodeActivity))]

def encodeTrackers (t : Trackers) : Json :=
  .obj [("weight", .arr (t.weight.map encodeWeightEntry)),
        ("fasting", .arr (t.fasting.map encodeFastingEntry)),
        ("carbs", .arr (t.carbs.map encodeCarbsEntry)),
        ("calories", .arr (t.calories.map encodeCaloriesEntry)),
        ("workouts", .arr (t.workouts.map encodeWorkoutEntry)),
        ("steps", .arr (t.steps.map encodeStepsEntry)),
        ("sleep", .arr (t.sleep.map encodeSleepEntry)),
        ("mood", .arr (t.mood.map encodeMoodEntry)),
        ("homework", .arr (t.homework.map encodeHomeworkEntry)),
        ("cleaning", .arr (t.cleaning.map encodeChoreEntry)),
        ("substances", .arr (t.substances.map encodeSubstanceEntry)),
        ("entertainment", .arr (t.entertainment.map encodeEntertainmentEntry))]

def encodeAppData (d : AppData) : Json :=
  .obj [("version", .num d.version),
        ("settings", encodeSettings d.settings),
        ("meta", encodeMeta d.meta),
        ("trackers", encodeTrackers d.trackers),
        ("updatedAt", .str d.updatedAt)]


/-! ### Well-formedness predicates (the section-3 invariants that the code
actually establishes; stated over the embedded structures). -/

def WFStringList (l : List String) : Prop :=
  (∀ s ∈ l, strTrim s = s ∧ s ≠ "") ∧ l.Nodup

def WFActivity (a : WorkoutActivity) : Prop :=
  strTrim a.metaId = a.metaId ∧ a.metaId ≠ "" ∧ 0 ≤ a.minutes ∧ a.minutes ≤ 1440

def WFMetaItem (i : MetaItem) : Prop :=
  strTrim i.name = i.name ∧ i.name ≠ "" ∧ strTrim i.id ≠ ""

def WFMetaItems (l : List MetaItem) : Prop :=
  (∀ i ∈ l, WFMetaItem i) ∧ (l.map MetaItem.id).Nodup

def WFMetaLists (m : MetaLists) : Prop :=
  WFMetaItems m.workouts ∧ WFMetaItems m.subjects ∧ WFMetaItems m.children ∧
    WFMetaItems m.chores ∧ WFMetaItems m.substances ∧ WFMetaItems m.entertainment

def WFBase (id date : String) : Prop :=
  strTrim id ≠ "" ∧ isDisplayDate date = true

def WFWeightEntry (e : WeightEntry) : Prop :=
  WFBase e.id e.date ∧ 0 ≤ e.weightLbs ∧ e.weightLbs ≤ 3000

def WFFastingEntry (e : FastingEntry) : Prop :=
  WFBase e.id e.date ∧ 0 ≤ e.hours ∧ e.hours ≤ 24

def WFCarbsEntry (e : CarbsEntry) : Prop :=
  WFBase e.id e.date ∧ 0 ≤ e.carbs ∧ e.carbs ≤ 500 ∧ strTrim e.notes = e.notes

def WFCaloriesEntry (e : CaloriesEntry) : Prop :=
  WFBase e.id e.date ∧ 0 ≤ e.calories ∧ e.calories ≤ 50000 ∧ strTrim e.notes = e.notes

def WFWorkoutEntry (e : WorkoutEntry) : Prop :=
  WFBase e.id e.date ∧ ∀ a ∈ e.activities, WFActivity a

def WFStepsEntry (e : StepsEntry) : Prop :=
  WFBase e.id e.date ∧ 0 ≤ e.steps ∧ e.steps ≤ 200000

def WFSleepEntry (e : SleepEntry) : Prop :=
  WFBase e.id e.date ∧ strTrim e.sleepTime = e.sleepTime ∧ strTrim e.wakeTime = e.wakeTime

def WFMoodEntry (e : MoodEntry) : Prop :=
  WFBase e.id e.date ∧ 0 ≤ e.moodStart ∧ e.moodStart ≤ 10 ∧ 0 ≤ e.moodEnd ∧
    e.moodEnd ≤ 10 ∧ strTrim e.notes = e.notes

def WFHomeworkEntry (e : HomeworkEntry) : Prop :=
  WFBase e.id e.date ∧ strTrim e.subjectId = e.subjectId ∧ strTrim e.childId = e.childId ∧
    0 ≤ e.minutes ∧ e.minutes ≤ 1440 ∧ strTrim e.notes = e.notes

def WFChoreEntry (e : ChoreEntry) : Prop :=
  WFBase e.id e.date ∧ WFStringList e.choreIds ∧ strTrim e.notes = e.notes

def WFSubstanceEntry (e : SubstanceEntry) : Prop :=
  WFBase e.id e.date ∧ WFStringList e.substanceIds ∧ strTrim e.notes = e.notes

def WFEntertainmentEntry (e : EntertainmentEntry) : Prop :=
  WFBase e.id e.date ∧ ∀ a ∈ e.activities, WFActivity a

def WFTrackers (t : Trackers) : Prop :=
  (∀ e ∈ t.weight, WFWeightEntry e) ∧ (∀ e ∈ t.fasting, WFFastingEntry e) ∧
    (∀ e ∈ t.carbs, WFCarbsEntry e) ∧ (∀ e ∈ t.calories, WFCaloriesEntry e) ∧
    (∀ e ∈ t.workouts, WFWorkoutEntry e) ∧ (∀ e ∈ t.steps, WFStepsEntry e) ∧
    (∀ e ∈ t.sleep, WFSleepEntry e) ∧ (∀ e ∈ t.mood, WFMoodEntry e) ∧
    (∀ e ∈ t.homework, WFHomeworkEntry e) ∧ (∀ e ∈ t.cleaning, WFChoreEntry e) ∧
    (∀ e ∈ t.substances, WFSubstanceEntry e) ∧ (∀ e ∈ t.entertainment, WFEntertainmentEntry e)

def WFSettings (s : AppSettings) : Prop :=
  (∀ q ∈ s.startingWeightLbs, 0 ≤ q) ∧ (∀ d ∈ s.dietStartDate, isDisplayDate d = true) ∧
    (∀ q ∈ s.weightLossPerWeekLbs, 0 ≤ q) ∧ (∀ q ∈ s.weightGoalLbs, 0 ≤ q) ∧
    (∀ q ∈ s.carbLimitPerDay, 0 ≤ q) ∧ (∀ q ∈ s.calorieLimitPerDay, 0 ≤ q) ∧
    (∀ q ∈ s.dailyStepsGoal, 0 ≤ q) ∧ (∀ q ∈ s.desiredSleepHours, 3 ≤ q ∧ q ≤ 12)

def WFAppData (d : AppData) : Prop :=
  d.version = 2 ∧ WFSettings d.settings ∧ WFMetaLists d.meta ∧ WFTrackers d.trackers

/-! ### Spec-side definitions and concrete inputs used by the claims -/

/-- ASCII lowercasing (the fragment of JS toLowerCase relevant to the
names compared below). -/
def lowerChar (c : Char) : Char :=
  if 'A' ≤ c ∧ c ≤ 'Z' then Char.ofNat (c.toNat + 32) else c

def strLower (s : String) : String := String.mk (s.data.map lowerChar)

/-- Section-3 wording of the spec: meta names pairwise unique under
case-insensitive comparison.  This follows the spec text, to be compared
with what sanitizeMetaList actually guarantees. -/
def namesCaseInsensitivelyUnique (l : List MetaItem) : Prop :=
  (l.map (fun i => strLower i.name)).Nodup

/-- Raw input holding two meta items with distinct ids whose names differ
only in case. -/
def caseCollisionInput : Json :=
  .obj [("meta", .obj [("workouts", .arr
    [.obj [("id", .str "a"), ("name", .str "X")],
     .obj [("id", .str "b"), ("name", .str "x")]])])]

/-- Raw input whose carbs list is absent while the deprecated entertainment
key holds one entry carrying carbs-shaped data with a valid date. -/
def carbsLegacyInput : Json :=
  .obj [("trackers", .obj [("entertainment", .arr
    [.obj [("id", .str "e1"), ("date", .str "01/02/2024"),
           ("carbs", .num 42), ("notes", .str "n")]])])]

/-- The trackers object of a raw document, one array per category key. -/
def mkTrackersObj (ls : TrackerKey → List Json) : Json :=
  .obj (trackerKeyList.map (fun k => (trackerKeyName k, Json.arr (ls k))))

/-- A raw document with explicit settings and meta sections and one raw
entry list per tracker category. -/
def mkRawDoc (settings meta : Json) (ls : TrackerKey → List Json) : Json :=
  .obj [("settings", settings), ("meta", meta), ("trackers", mkTrackersObj ls)]

/-- A document with three weight entries on consecutive dates, used to
exercise the clearTrackerEntriesBefore boundary. -/
def clearExampleDoc : AppData :=
  { createDefaultData "t0" with trackers :=
    { (createDefaultData "t0").trackers with weight :=
      [{ date := "01/01/2024", weightLbs := 180, id := "a" },
       { date := "01/02/2024", weightLbs := 181, id := "b" },
       { date := "01/03/2024", weightLbs := 182, id := "c" }] } }

/-- A document with one substances meta item referenced by one substance
entry, used to exercise the removeMetaItem usage gate. -/
def usageExampleDoc : AppData :=
  { createDefaultData "t0" with
    meta := { (createDefaultData "t0").meta with
      substances := [{ id := "s1", name := "A" }] }
    trackers := { (createDefaultData "t0").trackers with
      substances := [{ date := "01/15/2024", substanceIds := ["s1"], notes := "", id := "e1" }] } }

/-! ## Theorems

Helper lemmas about the embedded definitions, followed by the claim
theorems. -/

theorem ltrimChars_idem (l : List Char) : ltrimChars (ltrimChars l) = ltrimChars l := by
  unfold ltrimChars
  induction l with
  | nil => rfl
  | cons c cs ih =>
      by_cases h : wsChar c
      · simp [List.dropWhile_cons, h, ih]
      · simp [List.dropWhile_cons, h]

theorem rtrimChars_idem (l : List Char) : rtrimChars (rtrimChars l) = rtrimChars l := by
  unfold rtrimChars
  rw [List.reverse_reverse]
  rw [show (l.reverse.dropWhile wsChar).dropWhile wsChar = l.reverse.dropWhile wsChar from
    ltrimChars_idem l.reverse]

theorem rtrimChars_front (l : List Char) : rtrimChars l <+: l := by
  unfold rtrimChars
  have h : l.reverse.dropWhile wsChar <:+ l.reverse := List.dropWhile_suffix wsChar
  have := h.reverse
  simpa using this

theorem ltrimChars_of_front {l l' : List Char} (hp : l' <+: l)
    (h : ltrimChars l = l) : ltrimChars l' = l' := by
  cases l' with
  | nil => rfl
  | cons a as =>
      cases l with
      | nil => exact absurd (List.eq_nil_of_prefix_nil hp) (by simp)
      | cons b bs =>
          have hab : a = b := by
            rcases hp with ⟨t, ht⟩
            simp at ht
            exact ht.1
          have hb : ¬ wsChar b := by
            intro hw
            unfold ltrimChars at h
            rw [List.dropWhile_cons, if_pos (by simpa using hw)] at h
            have hlen := congrArg List.length h
            have hle : (bs.dropWhile wsChar).length ≤ bs.length :=
              (List.dropWhile_suffix wsChar).length_le
            simp at hlen
            omega
          unfold ltrimChars
          rw [List.dropWhile_cons, if_neg (by rw [hab]; simpa using hb)]

theorem trimChars_idem (l : List Char) : trimChars (trimChars l) = trimChars l := by
  unfold trimChars
  have h1 : ltrimChars (ltrimChars l) = ltrimChars l := ltrimChars_idem l
  have h2 : ltrimChars (rtrimChars (ltrimChars l)) = rtrimChars (ltrimChars l) :=
    ltrimChars_of_front (rtrimChars_front (ltrimChars l)) h1
  rw [h2, rtrimChars_idem]

theorem strTrim_strTrim (s : String) : strTrim (strTrim s) = strTrim s := by
  unfold strTrim
  simp [trimChars_idem]

theorem dropWhile_wsChar_eq_self (l : List Char) (h : ∀ c ∈ l, wsChar c = false) :
    l.dropWhile wsChar = l := by
  cases l with
  | nil => rfl
  | cons a as =>
      rw [List.dropWhile_cons, if_neg (by simp [h a (by simp)])]

theorem trimChars_eq_self (l : List Char) (h : ∀ c ∈ l, wsChar c = false) :
    trimChars l = l := by
  unfold trimChars ltrimChars rtrimChars
  rw [dropWhile_wsChar_eq_self l h]
  rw [dropWhile_wsChar_eq_self l.reverse (fun c hc => h c (List.mem_reverse.mp hc))]
  simp

theorem freshId_trim (n : ℕ) : strTrim (freshId n) = freshId n := by
  unfold freshId strTrim
  rw [trimChars_eq_self]
  intro c hc
  simp [List.mem_replicate] at hc
  rcases hc with h | h | h | h | h | h | h <;>
    first
      | (subst h; rfl)
      | (rw [h.2]; rfl)

theorem freshId_ne_empty (n : ℕ) : freshId n ≠ "" := by
  unfold freshId
  intro h
  have := congrArg (fun s => s.data.length) h
  simp at this

/-! ### Parser lemmas -/

theorem strTrim_empty : strTrim "" = "" := rfl

theorem parseText_trimmed (v : Json) : strTrim (parseText v) = parseText v := by
  cases v <;> simp only [parseText] <;> first | rfl | exact strTrim_strTrim _

theorem parseText_str (s : String) : parseText (.str s) = strTrim s := rfl

theorem parseRangedNumber_bounds (v : Json) {lo hi fb : ℚ} (h1 : lo ≤ fb) (h2 : fb ≤ hi) :
    lo ≤ parseRangedNumber v lo hi fb ∧ parseRangedNumber v lo hi fb ≤ hi := by
  cases v with
  | num q =>
      simp only [parseRangedNumber]
      split_ifs with h
      · simp at h; exact ⟨h.1, h.2⟩
      · exact ⟨h1, h2⟩
  | str s =>
      simp only [parseRangedNumber]
      split_ifs with h
      · cases hd : parseDecimal (strTrim s) with
        | none => simp only [hd]; exact ⟨h1, h2⟩
        | some q =>
            simp only [hd]
            split_ifs with hq
            · simp at hq; exact ⟨hq.1, hq.2⟩
            · exact ⟨h1, h2⟩
      · exact ⟨h1, h2⟩
  | null => exact ⟨h1, h2⟩
  | bool b => exact ⟨h1, h2⟩
  | arr l => exact ⟨h1, h2⟩
  | obj f => exact ⟨h1, h2⟩

theorem parseRangedNumber_num {q lo hi fb : ℚ} (hq1 : lo ≤ q) (hq2 : q ≤ hi) :
    parseRangedNumber (.num q) lo hi fb = q := by
  simp only [parseRangedNumber]
  rw [if_pos (by simp [hq1, hq2])]

theorem parseOptionalNonNegativeNumber_nonneg (v : Json) :
    ∀ q ∈ parseOptionalNonNegativeNumber v, 0 ≤ q := by
  intro q hq
  cases v with
  | num p =>
      simp only [parseOptionalNonNegativeNumber, parseOptionalNumber] at hq
      split_ifs at hq with h
      · exact absurd hq (by simp)
      · simp at hq; subst hq; exact not_lt.mp h
  | null => exact absurd hq (by simp [parseOptionalNonNegativeNumber, parseOptionalNumber])
  | bool b => exact absurd hq (by simp [parseOptionalNonNegativeNumber, parseOptionalNumber])
  | str s => exact absurd hq (by simp [parseOptionalNonNegativeNumber, parseOptionalNumber])
  | arr l => exact absurd hq (by simp [parseOptionalNonNegativeNumber, parseOptionalNumber])
  | obj f => exact absurd hq (by simp [parseOptionalNonNegativeNumber, parseOptionalNumber])

theorem parseOptionalNonNegativeNumber_encode (o : Option ℚ) (h : ∀ q ∈ o, 0 ≤ q) :
    parseOptionalNonNegativeNumber (encodeOptionalNumber o) = o := by
  cases o with
  | none => rfl
  | some q =>
      have hq : 0 ≤ q := h q rfl
      simp only [encodeOptionalNumber, parseOptionalNonNegativeNumber, parseOptionalNumber]
      rw [if_neg (not_lt.mpr hq)]

theorem parseOptionalRangedNumber_mem (v : Json) (lo hi : ℚ) :
    ∀ q ∈ parseOptionalRangedNumber v lo hi, lo ≤ q ∧ q ≤ hi := by
  intro q hq
  cases v with
  | num p =>
      simp only [parseOptionalRangedNumber, parseOptionalNumber] at hq
      split_ifs at hq with h
      · exact absurd hq (by simp)
      · simp only [Bool.or_eq_true, decide_eq_true_eq, not_or, not_lt] at h
        simp at hq; subst hq; exact ⟨h.1, h.2⟩
  | null => exact absurd hq (by simp [parseOptionalRangedNumber, parseOptionalNumber])
  | bool b => exact absurd hq (by simp [parseOptionalRangedNumber, parseOptionalNumber])
  | str s => exact absurd hq (by simp [parseOptionalRangedNumber, parseOptionalNumber])
  | arr l => exact absurd hq (by simp [parseOptionalRangedNumber, parseOptionalNumber])
  | obj f => exact absurd hq (by simp [parseOptionalRangedNumber, parseOptionalNumber])

theorem parseOptionalRangedNumber_encode (o : Option ℚ) (lo hi : ℚ)
    (h : ∀ q ∈ o, lo ≤ q ∧ q ≤ hi) :
    parseOptionalRangedNumber (encodeOptionalNumber o) lo hi = o := by
  cases o with
  | none => rfl
  | some q =>
      have hq := h q rfl
      simp only [encodeOptionalNumber, parseOptionalRangedNumber, parseOptionalNumber]
      rw [if_neg (by
        simp only [Bool.or_eq_true, decide_eq_true_eq, not_or, not_lt]
        exact ⟨hq.1, hq.2⟩)]

theorem parseDate_isDisplayDate (v : Json) : ∀ s ∈ parseDate v, isDisplayDate s = true := by
  intro s hs
  cases v with
  | str t =>
      simp only [parseDate] at hs
      split_ifs at hs with h
      · simp at hs; subst hs; exact h
      · exact absurd hs (by simp)
  | null => exact absurd hs (by simp [parseDate])
  | bool b => exact absurd hs (by simp [parseDate])
  | num q => exact absurd hs (by simp [parseDate])
  | arr l => exact absurd hs (by simp [parseDate])
  | obj f => exact absurd hs (by simp [parseDate])

theorem parseDate_encode (o : Option String) (h : ∀ s ∈ o, isDisplayDate s = true) :
    parseDate (encodeOptionalString o) = o := by
  cases o with
  | none => rfl
  | some s =>
      simp only [encodeOptionalString, parseDate]
      rw [if_pos (h s rfl)]

/-! ### String-list and activity lemmas -/

theorem parseStringListAux_wf (items : List Json) (acc : List String)
    (hacc : WFStringList acc) : WFStringList (parseStringListAux items acc) := by
  induction items generalizing acc with
  | nil => exact hacc
  | cons item rest ih =>
      cases item with
      | str s =>
          simp only [parseStringListAux]
          split_ifs with h
          · apply ih
            simp only [Bool.and_eq_true, decide_eq_true_eq, Bool.not_eq_true'] at h
            have hmem : strTrim s ∉ acc := by
              intro hm
              have hc : acc.contains (strTrim s) = true := List.elem_eq_true_of_mem hm
              rw [h.2] at hc
              exact absurd hc (by simp)
            obtain ⟨h1, h2⟩ := hacc
            refine ⟨?_, ?_⟩
            · intro t ht
              rcases List.mem_append.mp ht with ht | ht
              · exact h1 t ht
              · simp at ht; subst ht; exact ⟨strTrim_strTrim s, h.1⟩
            · rw [List.nodup_append]
              exact ⟨h2, List.nodup_singleton _, by
                intro t ht hts
                simp at hts
                subst hts
                exact hmem ht⟩
          · exact ih acc hacc
      | null => exact ih acc hacc
      | bool b => exact ih acc hacc
      | num q => exact ih acc hacc
      | arr l => exact ih acc hacc
      | obj f => exact ih acc hacc

theorem parseStringList_wf (v : Json) : WFStringList (parseStringList v) := by
  cases v with
  | arr items => exact parseStringListAux_wf items [] ⟨by simp, List.nodup_nil⟩
  | null => exact ⟨by simp [parseStringList], List.nodup_nil⟩
  | bool b => exact ⟨by simp [parseStringList], List.nodup_nil⟩
  | num q => exact ⟨by simp [parseStringList], List.nodup_nil⟩
  | str s => exact ⟨by simp [parseStringList], List.nodup_nil⟩
  | obj f => exact ⟨by simp [parseStringList], List.nodup_nil⟩

theorem parseStringListAux_encode (l : List String) (acc : List String)
    (hl : ∀ s ∈ l, strTrim s = s ∧ s ≠ "") (hnd : (acc ++ l).Nodup) :
    parseStringListAux (l.map Json.str) acc = acc ++ l := by
  induction l generalizing acc with
  | nil => simp [parseStringListAux]
  | cons s rest ih =>
      obtain ⟨h1, h2⟩ := hl s (by simp)
      have hnotin : s ∉ acc := by
        have := (List.nodup_append.mp (by simpa using hnd)).2.2
        intro hm
        exact this hm (by simp)
      simp only [List.map_cons, parseStringListAux, h1]
      rw [if_pos]
      · have := ih (acc ++ [s]) (fun t ht => hl t (by simp [ht])) (by simpa using hnd)
        rw [this]
        simp
      · simp only [Bool.and_eq_true, decide_eq_true_eq, Bool.not_eq_true']
        refine ⟨h2, ?_⟩
        rw [← Bool.not_eq_true]
        intro hc
        exact hnotin (List.mem_of_elem_eq_true hc)

theorem parseActivityItem_wf (a : Json) : ∀ x ∈ parseActivityItem a, WFActivity x := by
  intro x hx
  simp only [parseActivityItem] at hx
  split_ifs at hx with h1 h2
  · exact absurd hx (by simp)
  · exact absurd hx (by simp)
  · simp at hx
    subst hx
    refine ⟨parseText_trimmed _, h2, ?_⟩
    exact parseRangedNumber_bounds _ (by norm_num) (by norm_num)

theorem parseActivities_wf (v : Json) : ∀ x ∈ parseActivities v, WFActivity x := by
  intro x hx
  cases v with
  | arr items =>
      simp only [parseActivities] at hx
      obtain ⟨e, _, hfe⟩ := List.mem_filterMap.mp hx
      exact parseActivityItem_wf e x hfe
  | null => exact absurd hx (by simp [parseActivities])
  | bool b => exact absurd hx (by simp [parseActivities])
  | num q => exact absurd hx (by simp [parseActivities])
  | str s => exact absurd hx (by simp [parseActivities])
  | obj f => exact absurd hx (by simp [parseActivities])

theorem parseActivityItem_encode (a : WorkoutActivity) (h : WFActivity a) :
    parseActivityItem (encodeActivity a) = some a := by
  obtain ⟨h1, h2, h3, h4⟩ := h
  have hget1 : (encodeActivity a).get "metaId" = .str a.metaId := rfl
  have hget2 : (encodeActivity a).get "minutes" = .num a.minutes := rfl
  have hrec : (encodeActivity a).isRecord = true := rfl
  simp only [parseActivityItem, hrec, Bool.not_true, Bool.false_eq_true, if_false,
    hget1, hget2, parseText_str, h1]
  rw [if_neg h2, parseRangedNumber_num h3 h4]

theorem parseActivities_encode (l : List WorkoutActivity) (h : ∀ a ∈ l, WFActivity a) :
    parseActivities (.arr (l.map encodeActivity)) = l := by
  induction l with
  | nil => rfl
  | cons a rest ih =>
      simp only [parseActivities, List.map_cons, List.filterMap_cons,
        parseActivityItem_encode a (h a (by simp))]
      have := ih (fun x hx => h x (by simp [hx]))
      simp only [parseActivities] at this
      rw [this]

/-! ### Base-entry and entry-list lemmas -/

theorem parseBaseEntry_invalid {e : Json} (n : ℕ)
    (h : e.isRecord = false ∨ parseDate (e.get "date") = none) :
    parseBaseEntry e n = none := by
  rcases h with h | h
  · simp [parseBaseEntry, h]
  · cases hr : e.isRecord with
    | false => simp [parseBaseEntry, hr]
    | true => simp [parseBaseEntry, hr, h]

theorem parseBaseEntry_wf {e : Json} {b : BaseEntry} {n n' : ℕ}
    (h : parseBaseEntry e n = some (b, n')) :
    strTrim b.id ≠ "" ∧ isDisplayDate b.date = true := by
  have hfresh : ∀ m : ℕ, strTrim (freshId m) ≠ "" := fun m => by
    rw [freshId_trim]; exact freshId_ne_empty m
  simp only [parseBaseEntry] at h
  split at h
  · exact absurd h (by simp)
  · split at h
    case h_1 => exact absurd h (by simp)
    case h_2 date heq =>
        have hdate : isDisplayDate date = true := parseDate_isDisplayDate _ date heq
        split at h
        case h_1 s =>
            split at h
            case isTrue hs =>
                simp only [Option.some.injEq, Prod.mk.injEq] at h
                obtain ⟨h1, h2⟩ := h
                subst h1
                exact ⟨hs, hdate⟩
            case isFalse hs =>
                simp only [Option.some.injEq, Prod.mk.injEq] at h
                obtain ⟨h1, h2⟩ := h
                subst h1
                exact ⟨hfresh n, hdate⟩
        case h_2 x hx =>
            simp only [Option.some.injEq, Prod.mk.injEq] at h
            obtain ⟨h1, h2⟩ := h
            subst h1
            exact ⟨hfresh n, hdate⟩

theorem parseBaseEntry_encoded (eid edate : String) (rest : List (String × Json)) (n : ℕ)
    (hid : strTrim eid ≠ "") (hdate : isDisplayDate edate = true) :
    parseBaseEntry (.obj (("id", .str eid) :: ("date", .str edate) :: rest)) n
      = some ({ id := eid, date := edate }, n) := by
  have hgetd : (Json.obj (("id", .str eid) :: ("date", .str edate) :: rest)).get "date"
      = .str edate := rfl
  have hgeti : (Json.obj (("id", .str eid) :: ("date", .str edate) :: rest)).get "id"
      = .str eid := rfl
  simp only [parseBaseEntry, Json.isRecord, Bool.not_true, Bool.false_eq_true, if_false,
    hgetd, hgeti, parseDate]
  rw [if_pos hdate]
  simp only [if_pos hid]

theorem sanitizeEntryList_skip {α : Type} (build : Json → BaseEntry → α) {bad : Json}
    (hbad : ∀ m, parseBaseEntry bad m = none) (l1 l2 : List Json) (n : ℕ) :
    sanitizeEntryList build (l1 ++ bad :: l2) n = sanitizeEntryList build (l1 ++ l2) n := by
  induction l1 generalizing n with
  | nil => simp only [List.nil_append, sanitizeEntryList, hbad]
  | cons e rest ih =>
      simp only [List.cons_append, sanitizeEntryList]
      cases hpb : parseBaseEntry e n with
      | none => simp only [hpb]; exact ih n
      | some p =>
          simp only [hpb, List.append_eq]
          rw [ih p.2]

theorem sanitizeEntryList_mem {α : Type} (build : Json → BaseEntry → α) (Q : α → Prop)
    (hbuild : ∀ e b m m', parseBaseEntry e m = some (b, m') → Q (build e b))
    (l : List Json) (n : ℕ) : ∀ x ∈ (sanitizeEntryList build l n).1, Q x := by
  induction l generalizing n with
  | nil => intro x hx; simp [sanitizeEntryList] at hx
  | cons e rest ih =>
      intro x hx
      simp only [sanitizeEntryList] at hx
      cases hpb : parseBaseEntry e n with
      | none => rw [hpb] at hx; exact ih n x hx
      | some p =>
          rw [hpb] at hx
          simp at hx
          rcases hx with hx | hx
          · subst hx; exact hbuild e p.1 n p.2 hpb
          · exact ih p.2 x hx

theorem sanitizeEntryList_encode {α : Type} (build : Json → BaseEntry → α) (enc : α → Json)
    (base : α → BaseEntry) (l : List α) (n : ℕ)
    (h : ∀ x ∈ l, (∀ m, parseBaseEntry (enc x) m = some (base x, m)) ∧ build (enc x) (base x) = x) :
    sanitizeEntryList build (l.map enc) n = (l, n) := by
  induction l generalizing n with
  | nil => rfl
  | cons x rest ih =>
      obtain ⟨hx1, hx2⟩ := h x (by simp)
      simp only [List.map_cons, sanitizeEntryList, hx1 n, hx2]
      rw [ih n (fun y hy => h y (List.mem_cons_of_mem x hy))]

/-! ### Meta-list lemmas -/

theorem metaItemId_trim (item : Json) (n : ℕ) : strTrim (metaItemId item n).1 ≠ "" := by
  have hfresh : strTrim (freshId n) ≠ "" := by
    rw [freshId_trim]; exact freshId_ne_empty n
  cases hid : item.get "id" with
  | str s =>
      simp only [metaItemId, hid]
      split
      case isTrue hs => exact hs
      case isFalse hs => exact hfresh
  | null => simp only [metaItemId, hid]; exact hfresh
  | bool c => simp only [metaItemId, hid]; exact hfresh
  | num q => simp only [metaItemId, hid]; exact hfresh
  | arr l => simp only [metaItemId, hid]; exact hfresh
  | obj f => simp only [metaItemId, hid]; exact hfresh

theorem metaItemId_kept {s : String} (item : Json) (n : ℕ)
    (hid : item.get "id" = .str s) (hs : strTrim s ≠ "") :
    metaItemId item n = (s, n) := by
  simp only [metaItemId, hid]
  rw [if_pos hs]

theorem sanitizeMetaListAux_wf (items : List Json) (acc : List MetaItem) (n : ℕ)
    (hacc : WFMetaItems acc) : WFMetaItems (sanitizeMetaListAux items acc n).1 := by
  induction items generalizing acc n with
  | nil => exact hacc
  | cons item rest ih =>
      simp only [sanitizeMetaListAux]
      split
      · exact ih acc n hacc
      · split
        · exact ih acc n hacc
        · split
          · exact ih acc _ hacc
          case isFalse hname hdup =>
              apply ih
              obtain ⟨h1, h2⟩ := hacc
              have hnotin : ∀ i ∈ acc, i.id ≠ (metaItemId item n).1 := by
                intro i hi hcontra
                exact hdup (List.any_eq_true.mpr ⟨i, hi, by simp [hcontra]⟩)
              constructor
              · intro i hi
                rcases List.mem_append.mp hi with hi | hi
                · exact h1 i hi
                · rw [List.mem_singleton.mp hi]
                  exact ⟨parseText_trimmed _, hname, metaItemId_trim item n⟩
              · rw [List.map_append, List.nodup_append]
                refine ⟨h2, by simp, ?_⟩
                intro x hx hx2
                rw [List.mem_singleton.mp hx2] at hx
                obtain ⟨i, hi, hix⟩ := List.mem_map.mp hx
                exact hnotin i hi hix

theorem sanitizeMetaList_wf (v : Json) (n : ℕ) : WFMetaItems (sanitizeMetaList v n).1 := by
  have hemp : WFMetaItems [] := ⟨by simp, List.nodup_nil⟩
  cases v with
  | arr items => exact sanitizeMetaListAux_wf items [] n hemp
  | null => exact hemp
  | bool b => exact hemp
  | num q => exact hemp
  | str s => exact hemp
  | obj f => exact hemp

theorem sanitizeMetaListAux_encode (l : List MetaItem) (acc : List MetaItem) (n : ℕ)
    (hl : ∀ i ∈ l, WFMetaItem i) (hnd : ((acc ++ l).map MetaItem.id).Nodup) :
    sanitizeMetaListAux (l.map encodeMetaItem) acc n = (acc ++ l, n) := by
  induction l generalizing acc with
  | nil => simp [sanitizeMetaListAux]
  | cons i rest ih =>
      obtain ⟨hn1, hn2, hn3⟩ := hl i (by simp)
      have hgetn : (encodeMetaItem i).get "name" = .str i.name := rfl
      have hgeti : (encodeMetaItem i).get "id" = .str i.id := rfl
      have hrec : (encodeMetaItem i).isRecord = true := rfl
      have hidChoice : metaItemId (encodeMetaItem i) n = (i.id, n) :=
        metaItemId_kept _ n hgeti hn3
      have hnotin : ∀ j ∈ acc, j.id ≠ i.id := by
        intro j hj hcontra
        have hdisj := (List.nodup_append.mp (by
          rw [← List.map_append]
          exact hnd)).2.2
        exact hdisj (List.mem_map_of_mem _ hj) (by simp [hcontra])
      simp only [List.map_cons, sanitizeMetaListAux, hrec, Bool.not_true, Bool.false_eq_true,
        if_false, hgetn, parseText_str, hn1, hidChoice]
      rw [if_neg hn2, if_neg (by
        rw [List.any_eq_true]
        rintro ⟨j, hj, hji⟩
        simp at hji
        exact hnotin j hj hji)]
      have hrw := ih (acc ++ [i]) (fun j hj => hl j (List.mem_cons_of_mem i hj)) (by
        simpa using hnd)
      rw [hrw]
      simp

theorem sanitizeMetaList_encode (l : List MetaItem) (n : ℕ)
    (hl : ∀ i ∈ l, WFMetaItem i) (hnd : (l.map MetaItem.id).Nodup) :
    sanitizeMetaList (.arr (l.map encodeMetaItem)) n = (l, n) := by
  have := sanitizeMetaListAux_encode l [] n hl (by simpa using hnd)
  simpa [sanitizeMetaList] using this

/-! ### Per-category build lemmas -/

theorem buildWeight_wf (e : Json) (b : BaseEntry) (m m' : ℕ)
    (h : parseBaseEntry e m = some (b, m')) : WFWeightEntry (buildWeight e b) := by
  obtain ⟨h1, h2⟩ := parseBaseEntry_wf h
  have hb : 0 ≤ parseRangedNumber (e.get "weightLbs") 0 3000 0 ∧
      parseRangedNumber (e.get "weightLbs") 0 3000 0 ≤ 3000 :=
    parseRangedNumber_bounds _ (by norm_num) (by norm_num)
  exact ⟨⟨h1, h2⟩, hb.1, hb.2⟩

theorem buildFasting_wf (e : Json) (b : BaseEntry) (m m' : ℕ)
    (h : parseBaseEntry e m = some (b, m')) : WFFastingEntry (buildFasting e b) := by
  obtain ⟨h1, h2⟩ := parseBaseEntry_wf h
  have hb : 0 ≤ parseRangedNumber (e.get "hours") 0 24 0 ∧
      parseRangedNumber (e.get "hours") 0 24 0 ≤ 24 :=
    parseRangedNumber_bounds _ (by norm_num) (by norm_num)
  exact ⟨⟨h1, h2⟩, hb.1, hb.2⟩

theorem buildCarbs_wf (e : Json) (b : BaseEntry) (m m' : ℕ)
    (h : parseBaseEntry e m = some (b, m')) : WFCarbsEntry (buildCarbs e b) := by
  obtain ⟨h1, h2⟩ := parseBaseEntry_wf h
  have hb : 0 ≤ parseRangedNumber (e.get "carbs") 0 500 0 ∧
      parseRangedNumber (e.get "carbs") 0 500 0 ≤ 500 :=
    parseRangedNumber_bounds _ (by norm_num) (by norm_num)
  exact ⟨⟨h1, h2⟩, hb.1, hb.2, parseText_trimmed _⟩

theorem buildCalories_wf (e : Json) (b : BaseEntry) (m m' : ℕ)
    (h : parseBaseEntry e m = some (b, m')) : WFCaloriesEntry (buildCalories e b) := by
  obtain ⟨h1, h2⟩ := parseBaseEntry_wf h
  have hb : 0 ≤ parseRangedNumber (e.get "calories") 0 50000 0 ∧
      parseRangedNumber (e.get "calories") 0 50000 0 ≤ 50000 :=
    parseRangedNumber_bounds _ (by norm_num) (by norm_num)
  exact ⟨⟨h1, h2⟩, hb.1, hb.2, parseText_trimmed _⟩

theorem buildWorkout_wf (e : Json) (b : BaseEntry) (m m' : ℕ)
    (h : parseBaseEntry e m = some (b, m')) : WFWorkoutEntry (buildWorkout e b) := by
  obtain ⟨h1, h2⟩ := parseBaseEntry_wf h
  exact ⟨⟨h1, h2⟩, parseActivities_wf _⟩

theorem buildSteps_wf (e : Json) (b : BaseEntry) (m m' : ℕ)
    (h : parseBaseEntry e m = some (b, m')) : WFStepsEntry (buildSteps e b) := by
  obtain ⟨h1, h2⟩ := parseBaseEntry_wf h
  have hb : 0 ≤ parseRangedNumber (e.get "steps") 0 200000 0 ∧
      parseRangedNumber (e.get "steps") 0 200000 0 ≤ 200000 :=
    parseRangedNumber_bounds _ (by norm_num) (by norm_num)
  exact ⟨⟨h1, h2⟩, hb.1, hb.2⟩

theorem buildSleep_wf (e : Json) (b : BaseEntry) (m m' : ℕ)
    (h : parseBaseEntry e m = some (b, m')) : WFSleepEntry (buildSleep e b) := by
  obtain ⟨h1, h2⟩ := parseBaseEntry_wf h
  exact ⟨⟨h1, h2⟩, parseText_trimmed _, parseText_trimmed _⟩

theorem buildMood_wf (e : Json) (b : BaseEntry) (m m' : ℕ)
    (h : parseBaseEntry e m = some (b, m')) : WFMoodEntry (buildMood e b) := by
  obtain ⟨h1, h2⟩ := parseBaseEntry_wf h
  have hb1 : 0 ≤ parseRangedNumber (e.get "moodStart") 0 10 0 ∧
      parseRangedNumber (e.get "moodStart") 0 10 0 ≤ 10 :=
    parseRangedNumber_bounds _ (by norm_num) (by norm_num)
  have hb2 : 0 ≤ parseRangedNumber (e.get "moodEnd") 0 10 0 ∧
      parseRangedNumber (e.get "moodEnd") 0 10 0 ≤ 10 :=
    parseRangedNumber_bounds _ (by norm_num) (by norm_num)
  exact ⟨⟨h1, h2⟩, hb1.1, hb1.2, hb2.1, hb2.2, parseText_trimmed _⟩

theorem buildHomework_wf (e : Json) (b : BaseEntry) (m m' : ℕ)
    (h : parseBaseEntry e m = some (b, m')) : WFHomeworkEntry (buildHomework e b) := by
  obtain ⟨h1, h2⟩ := parseBaseEntry_wf h
  have hb : 0 ≤ parseRangedNumber (e.get "minutes") 0 1440 0 ∧
      parseRangedNumber (e.get "minutes") 0 1440 0 ≤ 1440 :=
    parseRangedNumber_bounds _ (by norm_num) (by norm_num)
  exact ⟨⟨h1, h2⟩, parseText_trimmed _, parseText_trimmed _, hb.1, hb.2, parseText_trimmed _⟩

theorem buildChore_wf (e : Json) (b : BaseEntry) (m m' : ℕ)
    (h : parseBaseEntry e m = some (b, m')) : WFChoreEntry (buildChore e b) := by
  obtain ⟨h1, h2⟩ := parseBaseEntry_wf h
  exact ⟨⟨h1, h2⟩, parseStringList_wf _, parseText_trimmed _⟩

theorem buildSubstance_wf (e : Json) (b : BaseEntry) (m m' : ℕ)
    (h : parseBaseEntry e m = some (b, m')) : WFSubstanceEntry (buildSubstance e b) := by
  obtain ⟨h1, h2⟩ := parseBaseEntry_wf h
  exact ⟨⟨h1, h2⟩, parseStringList_wf _, parseText_trimmed _⟩

theorem buildEntertainment_wf (e : Json) (b : BaseEntry) (m m' : ℕ)
    (h : parseBaseEntry e m = some (b, m')) : WFEntertainmentEntry (buildEntertainment e b) := by
  obtain ⟨h1, h2⟩ := parseBaseEntry_wf h
  refine ⟨⟨h1, h2⟩, ?_⟩
  intro a ha
  simp only [buildEntertainment] at ha
  split at ha
  · exact parseActivities_wf _ a ha
  · obtain ⟨s, hs, hsa⟩ := List.mem_map.mp ha
    have hwf := parseStringList_wf (e.get "entertainmentIds")
    obtain ⟨hs1, hs2⟩ := hwf.1 s hs
    rw [← hsa]
    exact ⟨hs1, hs2, le_refl 0, by norm_num⟩

theorem encodeWeight_roundtrip (x : WeightEntry) (h : WFWeightEntry x) :
    (∀ m, parseBaseEntry (encodeWeightEntry x) m = some ({ id := x.id, date := x.date }, m))
      ∧ buildWeight (encodeWeightEntry x) { id := x.id, date := x.date } = x := by
  obtain ⟨⟨h1, h2⟩, h3, h4⟩ := h
  refine ⟨fun m => parseBaseEntry_encoded x.id x.date _ m h1 h2, ?_⟩
  simp only [buildWeight]
  rw [show (encodeWeightEntry x).get "weightLbs" = .num x.weightLbs from rfl,
    parseRangedNumber_num h3 h4]

theorem encodeFasting_roundtrip (x : FastingEntry) (h : WFFastingEntry x) :
    (∀ m, parseBaseEntry (encodeFastingEntry x) m = some ({ id := x.id, date := x.date }, m))
      ∧ buildFasting (encodeFastingEntry x) { id := x.id, date := x.date } = x := by
  obtain ⟨⟨h1, h2⟩, h3, h4⟩ := h
  refine ⟨fun m => parseBaseEntry_encoded x.id x.date _ m h1 h2, ?_⟩
  simp only [buildFasting]
  rw [show (encodeFastingEntry x).get "hours" = .num x.hours from rfl,
    parseRangedNumber_num h3 h4]

theorem encodeCarbs_roundtrip (x : CarbsEntry) (h : WFCarbsEntry x) :
    (∀ m, parseBaseEntry (encodeCarbsEntry x) m = some ({ id := x.id, date := x.date }, m))
      ∧ buildCarbs (encodeCarbsEntry x) { id := x.id, date := x.date } = x := by
  obtain ⟨⟨h1, h2⟩, h3, h4, h5⟩ := h
  refine ⟨fun m => parseBaseEntry_encoded x.id x.date _ m h1 h2, ?_⟩
  simp only [buildCarbs]
  rw [show (encodeCarbsEntry x).get "carbs" = .num x.carbs from rfl,
    show (encodeCarbsEntry x).get "notes" = .str x.notes from rfl,
    parseRangedNumber_num h3 h4, parseText_str, h5]

theorem encodeCalories_roundtrip (x : CaloriesEntry) (h : WFCaloriesEntry x) :
    (∀ m, parseBaseEntry (encodeCaloriesEntry x) m = some ({ id := x.id, date := x.date }, m))
      ∧ buildCalories (encodeCaloriesEntry x) { id := x.id, date := x.date } = x := by
  obtain ⟨⟨h1, h2⟩, h3, h4, h5⟩ := h
  refine ⟨fun m => parseBaseEntry_encoded x.id x.date _ m h1 h2, ?_⟩
  simp only [buildCalories]
  rw [show (encodeCaloriesEntry x).get "calories" = .num x.calories from rfl,
    show (encodeCaloriesEntry x).get "notes" = .str x.notes from rfl,
    parseRangedNumber_num h3 h4, parseText_str, h5]

theorem encodeWorkout_roundtrip (x : WorkoutEntry) (h : WFWorkoutEntry x) :
    (∀ m, parseBaseEntry (encodeWorkoutEntry x) m = some ({ id := x.id, date := x.date }, m))
      ∧ buildWorkout (encodeWorkoutEntry x) { id := x.id, date := x.date } = x := by
  obtain ⟨⟨h1, h2⟩, h3⟩ := h
  refine ⟨fun m => parseBaseEntry_encoded x.id x.date _ m h1 h2, ?_⟩
  simp only [buildWorkout]
  rw [show (encodeWorkoutEntry x).get "activities" = .arr (x.activities.map encodeActivity) from rfl,
    parseActivities_encode _ h3]

theorem encodeSteps_roundtrip (x : StepsEntry) (h : WFStepsEntry x) :
    (∀ m, parseBaseEntry (encodeStepsEntry x) m = some ({ id := x.id, date := x.date }, m))
      ∧ buildSteps (encodeStepsEntry x) { id := x.id, date := x.date } = x := by
  obtain ⟨⟨h1, h2⟩, h3, h4⟩ := h
  refine ⟨fun m => parseBaseEntry_encoded x.id x.date _ m h1 h2, ?_⟩
  simp only [buildSteps]
  rw [show (encodeStepsEntry x).get "steps" = .num x.steps from rfl,
    parseRangedNumber_num h3 h4]

theorem encodeSleep_roundtrip (x : SleepEntry) (h : WFSleepEntry x) :
    (∀ m, parseBaseEntry (encodeSleepEntry x) m = some ({ id := x.id, date := x.date }, m))
      ∧ buildSleep (encodeSleepEntry x) { id := x.id, date := x.date } = x := by
  obtain ⟨⟨h1, h2⟩, h3, h4⟩ := h
  refine ⟨fun m => parseBaseEntry_encoded x.id x.date _ m h1 h2, ?_⟩
  simp only [buildSleep]
  rw [show (encodeSleepEntry x).get "sleepTime" = .str x.sleepTime from rfl,
    show (encodeSleepEntry x).get "wakeTime" = .str x.wakeTime from rfl,
    parseText_str, parseText_str, h3, h4]

theorem encodeMood_roundtrip (x : MoodEntry) (h : WFMoodEntry x) :
    (∀ m, parseBaseEntry (encodeMoodEntry x) m = some ({ id := x.id, date := x.date }, m))
      ∧ buildMood (encodeMoodEntry x) { id := x.id, date := x.date } = x := by
  obtain ⟨⟨h1, h2⟩, h3, h4, h5, h6, h7⟩ := h
  refine ⟨fun m => parseBaseEntry_encoded x.id x.date _ m h1 h2, ?_⟩
  simp only [buildMood]
  rw [show (encodeMoodEntry x).get "moodStart" = .num x.moodStart from rfl,
    show (encodeMoodEntry x).get "moodEnd" = .num x.moodEnd from rfl,
    show (encodeMoodEntry x).get "notes" = .str x.notes from rfl,
    parseRangedNumber_num h3 h4, parseRangedNumber_num h5 h6, parseText_str, h7]

theorem encodeHomework_roundtrip (x : HomeworkEntry) (h : WFHomeworkEntry x) :
    (∀ m, parseBaseEntry (encodeHomeworkEntry x) m = some ({ id := x.id, date := x.date }, m))
      ∧ buildHomework (encodeHomeworkEntry x) { id := x.id, date := x.date } = x := by
  obtain ⟨⟨h1, h2⟩, h3, h4, h5, h6, h7⟩ := h
  refine ⟨fun m => parseBaseEntry_encoded x.id x.date _ m h1 h2, ?_⟩
  simp only [buildHomework]
  rw [show (encodeHomeworkEntry x).get "subjectId" = .str x.subjectId from rfl,
    show (encodeHomeworkEntry x).get "childId" = .str x.childId from rfl,
    show (encodeHomeworkEntry x).get "minutes" = .num x.minutes from rfl,
    show (encodeHomeworkEntry x).get "notes" = .str x.notes from rfl,
    parseRangedNumber_num h5 h6, parseText_str, parseText_str, parseText_str, h3, h4, h7]

theorem encodeChore_roundtrip (x : ChoreEntry) (h : WFChoreEntry x) :
    (∀ m, parseBaseEntry (encodeChoreEntry x) m = some ({ id := x.id, date := x.date }, m))
      ∧ buildChore (encodeChoreEntry x) { id := x.id, date := x.date } = x := by
  obtain ⟨⟨h1, h2⟩, h3, h4⟩ := h
  refine ⟨fun m => parseBaseEntry_encoded x.id x.date _ m h1 h2, ?_⟩
  simp only [buildChore]
  rw [show (encodeChoreEntry x).get "choreIds" = .arr (x.choreIds.map Json.str) from rfl,
    show (encodeChoreEntry x).get "notes" = .str x.notes from rfl,
    parseText_str, h4]
  have := parseStringListAux_encode x.choreIds [] h3.1 (by simpa using h3.2)
  simp only [parseStringList, this, List.nil_append]

theorem encodeSubstance_roundtrip (x : SubstanceEntry) (h : WFSubstanceEntry x) :
    (∀ m, parseBaseEntry (encodeSubstanceEntry x) m = some ({ id := x.id, date := x.date }, m))
      ∧ buildSubstance (encodeSubstanceEntry x) { id := x.id, date := x.date } = x := by
  obtain ⟨⟨h1, h2⟩, h3, h4⟩ := h
  refine ⟨fun m => parseBaseEntry_encoded x.id x.date _ m h1 h2, ?_⟩
  simp only [buildSubstance]
  rw [show (encodeSubstanceEntry x).get "substanceIds" = .arr (x.substanceIds.map Json.str) from rfl,
    show (encodeSubstanceEntry x).get "notes" = .str x.notes from rfl,
    parseText_str, h4]
  have := parseStringListAux_encode x.substanceIds [] h3.1 (by simpa using h3.2)
  simp only [parseStringList, this, List.nil_append]

theorem encodeEntertainment_roundtrip (x : EntertainmentEntry) (h : WFEntertainmentEntry x) :
    (∀ m, parseBaseEntry (encodeEntertainmentEntry x) m = some ({ id := x.id, date := x.date }, m))
      ∧ buildEntertainment (encodeEntertainmentEntry x) { id := x.id, date := x.date } = x := by
  obtain ⟨⟨h1, h2⟩, h3⟩ := h
  refine ⟨fun m => parseBaseEntry_encoded x.id x.date _ m h1 h2, ?_⟩
  simp only [buildEntertainment]
  rw [show (encodeEntertainmentEntry x).get "activities" = .arr (x.activities.map encodeActivity) from rfl,
    show (encodeEntertainmentEntry x).get "entertainmentIds" = Json.null from rfl,
    parseActivities_encode _ h3]
  rcases x with ⟨⟨xd, xa⟩, xi⟩
  cases xa with
  | nil => simp [parseStringList]
  | cons a rest => simp

/-! ### Component-level sanitization lemmas -/

theorem sanitizeSettings_wf (raw : Json) : WFSettings (sanitizeSettings raw) :=
  ⟨parseOptionalNonNegativeNumber_nonneg _,
   parseDate_isDisplayDate _,
   parseOptionalNonNegativeNumber_nonneg _,
   parseOptionalNonNegativeNumber_nonneg _,
   parseOptionalNonNegativeNumber_nonneg _,
   parseOptionalNonNegativeNumber_nonneg _,
   parseOptionalNonNegativeNumber_nonneg _,
   parseOptionalRangedNumber_mem _ 3 12⟩

theorem sanitizeSettings_encode (s : AppSettings) (h : WFSettings s) :
    sanitizeSettings (encodeSettings s) = s := by
  obtain ⟨w1, w2, w3, w4, w5, w6, w7, w8⟩ := h
  rcases s with ⟨th, a1, a2, a3, a4, a5, a6, a7, a8⟩
  simp only [sanitizeSettings,
    show (encodeSettings ⟨th, a1, a2, a3, a4, a5, a6, a7, a8⟩).get "theme"
      = encodeTheme th from rfl,
    show (encodeSettings ⟨th, a1, a2, a3, a4, a5, a6, a7, a8⟩).get "startingWeightLbs"
      = encodeOptionalNumber a1 from rfl,
    show (encodeSettings ⟨th, a1, a2, a3, a4, a5, a6, a7, a8⟩).get "dietStartDate"
      = encodeOptionalString a2 from rfl,
    show (encodeSettings ⟨th, a1, a2, a3, a4, a5, a6, a7, a8⟩).get "weightLossPerWeekLbs"
      = encodeOptionalNumber a3 from rfl,
    show (encodeSettings ⟨th, a1, a2, a3, a4, a5, a6, a7, a8⟩).get "weightGoalLbs"
      = encodeOptionalNumber a4 from rfl,
    show (encodeSettings ⟨th, a1, a2, a3, a4, a5, a6, a7, a8⟩).get "carbLimitPerDay"
      = encodeOptionalNumber a5 from rfl,
    show (encodeSettings ⟨th, a1, a2, a3, a4, a5, a6, a7, a8⟩).get "calorieLimitPerDay"
      = encodeOptionalNumber a6 from rfl,
    show (encodeSettings ⟨th, a1, a2, a3, a4, a5, a6, a7, a8⟩).get "dailyStepsGoal"
      = encodeOptionalNumber a7 from rfl,
    show (encodeSettings ⟨th, a1, a2, a3, a4, a5, a6, a7, a8⟩).get "desiredSleepHours"
      = encodeOptionalNumber a8 from rfl,
    parseOptionalNonNegativeNumber_encode _ w1,
    parseDate_encode _ w2,
    parseOptionalNonNegativeNumber_encode _ w3,
    parseOptionalNonNegativeNumber_encode _ w4,
    parseOptionalNonNegativeNumber_encode _ w5,
    parseOptionalNonNegativeNumber_encode _ w6,
    parseOptionalNonNegativeNumber_encode _ w7,
    parseOptionalRangedNumber_encode _ 3 12 w8]
  cases th with
  | light => rfl
  | dark => rfl

theorem sanitizeMetaLists_wf (raw : Json) (n : ℕ) : WFMetaLists (sanitizeMetaLists raw n).1 :=
  ⟨sanitizeMetaList_wf _ _, sanitizeMetaList_wf _ _, sanitizeMetaList_wf _ _,
   sanitizeMetaList_wf _ _, sanitizeMetaList_wf _ _, sanitizeMetaList_wf _ _⟩

theorem sanitizeMetaLists_encode (m : MetaLists) (n : ℕ) (h : WFMetaLists m) :
    sanitizeMetaLists (encodeMeta m) n = (m, n) := by
  obtain ⟨h1, h2, h3, h4, h5, h6⟩ := h
  rcases m with ⟨mw, msj, mc, mch, msb, me⟩
  simp only [sanitizeMetaLists,
    show (encodeMeta ⟨mw, msj, mc, mch, msb, me⟩).get "workouts"
      = .arr (mw.map encodeMetaItem) from rfl,
    show (encodeMeta ⟨mw, msj, mc, mch, msb, me⟩).get "subjects"
      = .arr (msj.map encodeMetaItem) from rfl,
    show (encodeMeta ⟨mw, msj, mc, mch, msb, me⟩).get "children"
      = .arr (mc.map encodeMetaItem) from rfl,
    show (encodeMeta ⟨mw, msj, mc, mch, msb, me⟩).get "chores"
      = .arr (mch.map encodeMetaItem) from rfl,
    show (encodeMeta ⟨mw, msj, mc, mch, msb, me⟩).get "substances"
      = .arr (msb.map encodeMetaItem) from rfl,
    show (encodeMeta ⟨mw, msj, mc, mch, msb, me⟩).get "entertainment"
      = .arr (me.map encodeMetaItem) from rfl,
    sanitizeMetaList_encode mw n h1.1 h1.2,
    sanitizeMetaList_encode msj n h2.1 h2.2,
    sanitizeMetaList_encode mc n h3.1 h3.2,
    sanitizeMetaList_encode mch n h4.1 h4.2,
    sanitizeMetaList_encode msb n h5.1 h5.2,
    sanitizeMetaList_encode me n h6.1 h6.2]

theorem sanitizeTrackers_wf (raw : Json) (n : ℕ) : WFTrackers (sanitizeTrackers raw n).1 :=
  ⟨sanitizeEntryList_mem _ _ buildWeight_wf _ _,
   sanitizeEntryList_mem _ _ buildFasting_wf _ _,
   sanitizeEntryList_mem _ _ buildCarbs_wf _ _,
   sanitizeEntryList_mem _ _ buildCalories_wf _ _,
   sanitizeEntryList_mem _ _ buildWorkout_wf _ _,
   sanitizeEntryList_mem _ _ buildSteps_wf _ _,
   sanitizeEntryList_mem _ _ buildSleep_wf _ _,
   sanitizeEntryList_mem _ _ buildMood_wf _ _,
   sanitizeEntryList_mem _ _ buildHomework_wf _ _,
   sanitizeEntryList_mem _ _ buildChore_wf _ _,
   sanitizeEntryList_mem _ _ buildSubstance_wf _ _,
   sanitizeEntryList_mem _ _ buildEntertainment_wf _ _⟩

theorem sanitizeTrackers_encode (t : Trackers) (n : ℕ) (h : WFTrackers t) :
    sanitizeTrackers (encodeTrackers t) n = (t, n) := by
  obtain ⟨h1, h2, h3, h4, h5, h6, h7, h8, h9, h10, h11, h12⟩ := h
  rcases t with ⟨t1, t2, t3, t4, t5, t6, t7, t8, t9, t10, t11, t12⟩
  simp only [sanitizeTrackers,
    show getRawEntryList (encodeTrackers ⟨t1, t2, t3, t4, t5, t6, t7, t8, t9, t10, t11, t12⟩)
      "weight" = t1.map encodeWeightEntry from rfl,
    show getRawEntryList (encodeTrackers ⟨t1, t2, t3, t4, t5, t6, t7, t8, t9, t10, t11, t12⟩)
      "fasting" = t2.map encodeFastingEntry from rfl,
    show getRawEntryList (encodeTrackers ⟨t1, t2, t3, t4, t5, t6, t7, t8, t9, t10, t11, t12⟩)
      "carbs" = t3.map encodeCarbsEntry from rfl,
    show getRawEntryList (encodeTrackers ⟨t1, t2, t3, t4, t5, t6, t7, t8, t9, t10, t11, t12⟩)
      "calories" = t4.map encodeCaloriesEntry from rfl,
    show getRawEntryList (encodeTrackers ⟨t1, t2, t3, t4, t5, t6, t7, t8, t9, t10, t11, t12⟩)
      "workouts" = t5.map encodeWorkoutEntry from rfl,
    show getRawEntryList (encodeTrackers ⟨t1, t2, t3, t4, t5, t6, t7, t8, t9, t10, t11, t12⟩)
      "steps" = t6.map encodeStepsEntry from rfl,
    show getRawEntryList (encodeTrackers ⟨t1, t2, t3, t4, t5, t6, t7, t8, t9, t10, t11, t12⟩)
      "sleep" = t7.map encodeSleepEntry from rfl,
    show getRawEntryList (encodeTrackers ⟨t1, t2, t3, t4, t5, t6, t7, t8, t9, t10, t11, t12⟩)
      "mood" = t8.map encodeMoodEntry from rfl,
    show getRawEntryList (encodeTrackers ⟨t1, t2, t3, t4, t5, t6, t7, t8, t9, t10, t11, t12⟩)
      "homework" = t9.map encodeHomeworkEntry from rfl,
    show getRawEntryList (encodeTrackers ⟨t1, t2, t3, t4, t5, t6, t7, t8, t9, t10, t11, t12⟩)
      "cleaning" = t10.map encodeChoreEntry from rfl,
    show getRawEntryList (encodeTrackers ⟨t1, t2, t3, t4, t5, t6, t7, t8, t9, t10, t11, t12⟩)
      "substances" = t11.map encodeSubstanceEntry from rfl,
    show getRawEntryList (encodeTrackers ⟨t1, t2, t3, t4, t5, t6, t7, t8, t9, t10, t11, t12⟩)
      "entertainment" = t12.map encodeEntertainmentEntry from rfl,
    sanitizeEntryList_encode buildWeight encodeWeightEntry
      (fun x => { id := x.id, date := x.date }) t1 n
      (fun x hx => encodeWeight_roundtrip x (h1 x hx)),
    sanitizeEntryList_encode buildFasting encodeFastingEntry
      (fun x => { id := x.id, date := x.date }) t2 n
      (fun x hx => encodeFasting_roundtrip x (h2 x hx)),
    sanitizeEntryList_encode buildCarbs encodeCarbsEntry
      (fun x => { id := x.id, date := x.date }) t3 n
      (fun x hx => encodeCarbs_roundtrip x (h3 x hx)),
    sanitizeEntryList_encode buildCalories encodeCaloriesEntry
      (fun x => { id := x.id, date := x.date }) t4 n
      (fun x hx => encodeCalories_roundtrip x (h4 x hx)),
    sanitizeEntryList_encode buildWorkout encodeWorkoutEntry
      (fun x => { id := x.id, date := x.date }) t5 n
      (fun x hx => encodeWorkout_roundtrip x (h5 x hx)),
    sanitizeEntryList_encode buildSteps encodeStepsEntry
      (fun x => { id := x.id, date := x.date }) t6 n
      (fun x hx => encodeSteps_roundtrip x (h6 x hx)),
    sanitizeEntryList_encode buildSleep encodeSleepEntry
      (fun x => { id := x.id, date := x.date }) t7 n
      (fun x hx => encodeSleep_roundtrip x (h7 x hx)),
    sanitizeEntryList_encode buildMood encodeMoodEntry
      (fun x => { id := x.id, date := x.date }) t8 n
      (fun x hx => encodeMood_roundtrip x (h8 x hx)),
    sanitizeEntryList_encode buildHomework encodeHomeworkEntry
      (fun x => { id := x.id, date := x.date }) t9 n
      (fun x hx => encodeHomework_roundtrip x (h9 x hx)),
    sanitizeEntryList_encode buildChore encodeChoreEntry
      (fun x => { id := x.id, date := x.date }) t10 n
      (fun x hx => encodeChore_roundtrip x (h10 x hx)),
    sanitizeEntryList_encode buildSubstance encodeSubstanceEntry
      (fun x => { id := x.id, date := x.date }) t11 n
      (fun x hx => encodeSubstance_roundtrip x (h11 x hx)),
    sanitizeEntryList_encode buildEntertainment encodeEntertainmentEntry
      (fun x => { id := x.id, date := x.date }) t12 n
      (fun x hx => encodeEntertainment_roundtrip x (h12 x hx))]

theorem createDefaultData_wf (now : String) : WFAppData (createDefaultData now) := by
  refine ⟨rfl, ?_, ?_, ?_⟩
  · exact ⟨by simp [createDefaultData], by simp [createDefaultData], by simp [createDefaultData],
      by simp [createDefaultData], by simp [createDefaultData], by simp [createDefaultData],
      by simp [createDefaultData], by simp [createDefaultData]⟩
  · exact ⟨⟨by simp [createDefaultData], by simp [createDefaultData]⟩,
      ⟨by simp [createDefaultData], by simp [createDefaultData]⟩,
      ⟨by simp [createDefaultData], by simp [createDefaultData]⟩,
      ⟨by simp [createDefaultData], by simp [createDefaultData]⟩,
      ⟨by simp [createDefaultData], by simp [createDefaultData]⟩,
      ⟨by simp [createDefaultData], by simp [createDefaultData]⟩⟩
  · exact ⟨by simp [createDefaultData], by simp [createDefaultData], by simp [createDefaultData],
      by simp [createDefaultData], by simp [createDefaultData], by simp [createDefaultData],
      by simp [createDefaultData], by simp [createDefaultData], by simp [createDefaultData],
      by simp [createDefaultData], by simp [createDefaultData], by simp [createDefaultData]⟩

theorem sanitizeData_wf (v : Json) (now : String) (n : ℕ) :
    WFAppData (sanitizeData v now n).1 := by
  unfold sanitizeData
  split
  · exact createDefaultData_wf now
  · exact ⟨rfl, sanitizeSettings_wf _, sanitizeMetaLists_wf _ _, sanitizeTrackers_wf _ _⟩

theorem sanitizeData_encode (d : AppData) (h : WFAppData d) (now : String) (m : ℕ) :
    sanitizeData (encodeAppData d) now m = ({ d with updatedAt := now }, m) := by
  obtain ⟨hv, hs, hm, ht⟩ := h
  unfold sanitizeData
  rw [if_neg (by rw [show (encodeAppData d).isRecord = true from rfl]; simp)]
  simp only [show (encodeAppData d).get "settings" = encodeSettings d.settings from rfl,
    show (encodeAppData d).get "meta" = encodeMeta d.meta from rfl,
    show (encodeAppData d).get "trackers" = encodeTrackers d.trackers from rfl,
    show (encodeSettings d.settings).isRecord = true from rfl,
    show (encodeMeta d.meta).isRecord = true from rfl,
    show (encodeTrackers d.trackers).isRecord = true from rfl,
    if_true,
    sanitizeSettings_encode d.settings hs,
    sanitizeMetaLists_encode d.meta m hm,
    sanitizeTrackers_encode d.trackers m ht]
  rcases d with ⟨dv, ds, dm, dt, du⟩
  simp at hv
  subst hv
  rfl

/-! ### Raw-document lemmas for the per-entry filter and legacy-fallback claims -/

theorem sanitizeData_mkRawDoc (s m : Json) (ls : TrackerKey → List Json) (now : String) (n : ℕ) :
    sanitizeData (mkRawDoc s m ls) now n
      = ({ version := 2,
           settings := sanitizeSettings (if s.isRecord then s else .obj []),
           meta := (sanitizeMetaLists (if m.isRecord then m else .obj []) n).1,
           trackers := (sanitizeTrackers (mkTrackersObj ls)
             (sanitizeMetaLists (if m.isRecord then m else .obj []) n).2).1,
           updatedAt := now },
         (sanitizeTrackers (mkTrackersObj ls)
           (sanitizeMetaLists (if m.isRecord then m else .obj []) n).2).2) := rfl

theorem sanitizeTrackers_skip (ls ls' : TrackerKey → List Json) (k : TrackerKey) (bad : Json)
    (l1 l2 : List Json) (hbad : ∀ m, parseBaseEntry bad m = none)
    (hne : ∀ j, j ≠ k → ls' j = ls j)
    (hk' : ls' k = l1 ++ bad :: l2) (hk : ls k = l1 ++ l2) (n : ℕ) :
    sanitizeTrackers (mkTrackersObj ls') n = sanitizeTrackers (mkTrackersObj ls) n := by
  have gweight : ∀ f : TrackerKey → List Json,
      getRawEntryList (mkTrackersObj f) "weight" = f .weight := fun f => rfl
  have gfasting : ∀ f : TrackerKey → List Json,
      getRawEntryList (mkTrackersObj f) "fasting" = f .fasting := fun f => rfl
  have gcarbs : ∀ f : TrackerKey → List Json,
      getRawEntryList (mkTrackersObj f) "carbs" = f .carbs := fun f => rfl
  have gcalories : ∀ f : TrackerKey → List Json,
      getRawEntryList (mkTrackersObj f) "calories" = f .calories := fun f => rfl
  have gworkouts : ∀ f : TrackerKey → List Json,
      getRawEntryList (mkTrackersObj f) "workouts" = f .workouts := fun f => rfl
  have gsteps : ∀ f : TrackerKey → List Json,
      getRawEntryList (mkTrackersObj f) "steps" = f .steps := fun f => rfl
  have gsleep : ∀ f : TrackerKey → List Json,
      getRawEntryList (mkTrackersObj f) "sleep" = f .sleep := fun f => rfl
  have gmood : ∀ f : TrackerKey → List Json,
      getRawEntryList (mkTrackersObj f) "mood" = f .mood := fun f => rfl
  have ghomework : ∀ f : TrackerKey → List Json,
      getRawEntryList (mkTrackersObj f) "homework" = f .homework := fun f => rfl
  have gcleaning : ∀ f : TrackerKey → List Json,
      getRawEntryList (mkTrackersObj f) "cleaning" = f .cleaning := fun f => rfl
  have gsubstances : ∀ f : TrackerKey → List Json,
      getRawEntryList (mkTrackersObj f) "substances" = f .substances := fun f => rfl
  have gentertainment : ∀ f : TrackerKey → List Json,
      getRawEntryList (mkTrackersObj f) "entertainment" = f .entertainment := fun f => rfl
  cases k with
  | weight =>
      simp only [sanitizeTrackers, gweight, gfasting, gcarbs, gcalories, gworkouts, gsteps, gsleep, gmood, ghomework, gcleaning, gsubstances, gentertainment,
        hk', hk, hne .fasting (by decide),
        hne .carbs (by decide),
        hne .calories (by decide),
        hne .workouts (by decide),
        hne .steps (by decide),
        hne .sleep (by decide),
        hne .mood (by decide),
        hne .homework (by decide),
        hne .cleaning (by decide),
        hne .substances (by decide),
        hne .entertainment (by decide),
        sanitizeEntryList_skip buildWeight hbad l1 l2]
  | fasting =>
      simp only [sanitizeTrackers, gweight, gfasting, gcarbs, gcalories, gworkouts, gsteps, gsleep, gmood, ghomework, gcleaning, gsubstances, gentertainment,
        hk', hk, hne .weight (by decide),
        hne .carbs (by decide),
        hne .calories (by decide),
        hne .workouts (by decide),
        hne .steps (by decide),
        hne .sleep (by decide),
        hne .mood (by decide),
        hne .homework (by decide),
        hne .cleaning (by decide),
        hne .substances (by decide),
        hne .entertainment (by decide),
        sanitizeEntryList_skip buildFasting hbad l1 l2]
  | carbs =>
      simp only [sanitizeTrackers, gweight, gfasting, gcarbs, gcalories, gworkouts, gsteps, gsleep, gmood, ghomework, gcleaning, gsubstances, gentertainment,
        hk', hk, hne .weight (by decide),
        hne .fasting (by decide),
        hne .calories (by decide),
        hne .workouts (by decide),
        hne .steps (by decide),
        hne .sleep (by decide),
        hne .mood (by decide),
        hne .homework (by decide),
        hne .cleaning (by decide),
        hne .substances (by decide),
        hne .entertainment (by decide),
        sanitizeEntryList_skip buildCarbs hbad l1 l2]
  | calories =>
      simp only [sanitizeTrackers, gweight, gfasting, gcarbs, gcalories, gworkouts, gsteps, gsleep, gmood, ghomework, gcleaning, gsubstances, gentertainment,
        hk', hk, hne .weight (by decide),
        hne .fasting (by decide),
        hne .carbs (by decide),
        hne .workouts (by decide),
        hne .steps (by decide),
        hne .sleep (by decide),
        hne .mood (by decide),
        hne .homework (by decide),
        hne .cleaning (by decide),
        hne .substances (by decide),
        hne .entertainment (by decide),
        sanitizeEntryList_skip buildCalories hbad l1 l2]
  | workouts =>
      simp only [sanitizeTrackers, gweight, gfasting, gcarbs, gcalories, gworkouts, gsteps, gsleep, gmood, ghomework, gcleaning, gsubstances, gentertainment,
        hk', hk, hne .weight (by decide),
        hne .fasting (by decide),
        hne .carbs (by decide),
        hne .calories (by decide),
        hne .steps (by decide),
        hne .sleep (by decide),
        hne .mood (by decide),
        hne .homework (by decide),
        hne .cleaning (by decide),
        hne .substances (by decide),
        hne .entertainment (by decide),
        sanitizeEntryList_skip buildWorkout hbad l1 l2]
  | steps =>
      simp only [sanitizeTrackers, gweight, gfasting, gcarbs, gcalories, gworkouts, gsteps, gsleep, gmood, ghomework, gcleaning, gsubstances, gentertainment,
        hk', hk, hne .weight (by decide),
        hne .fasting (by decide),
        hne .carbs (by decide),
        hne .calories (by decide),
        hne .workouts (by decide),
        hne .sleep (by decide),
        hne .mood (by decide),
        hne .homework (by decide),
        hne .cleaning (by decide),
        hne .substances (by decide),
        hne .entertainment (by decide),
        sanitizeEntryList_skip buildSteps hbad l1 l2]
  | sleep =>
      simp only [sanitizeTrackers, gweight, gfasting, gcarbs, gcalories, gworkouts, gsteps, gsleep, gmood, ghomework, gcleaning, gsubstances, gentertainment,
        hk', hk, hne .weight (by decide),
        hne .fasting (by decide),
        hne .carbs (by decide),
        hne .calories (by decide),
        hne .workouts (by decide),
        hne .steps (by decide),
        hne .mood (by decide),
        hne .homework (by decide),
        hne .cleaning (by decide),
        hne .substances (by decide),
        hne .entertainment (by decide),
        sanitizeEntryList_skip buildSleep hbad l1 l2]
  | mood =>
      simp only [sanitizeTrackers, gweight, gfasting, gcarbs, gcalories, gworkouts, gsteps, gsleep, gmood, ghomework, gcleaning, gsubstances, gentertainment,
        hk', hk, hne .weight (by decide),
        hne .fasting (by decide),
        hne .carbs (by decide),
        hne .calories (by decide),
        hne .workouts (by decide),
        hne .steps (by decide),
        hne .sleep (by decide),
        hne .homework (by decide),
        hne .cleaning (by decide),
        hne .substances (by decide),
        hne .entertainment (by decide),
        sanitizeEntryList_skip buildMood hbad l1 l2]
  | homework =>
      simp only [sanitizeTrackers, gweight, gfasting, gcarbs, gcalories, gworkouts, gsteps, gsleep, gmood, ghomework, gcleaning, gsubstances, gentertainment,
        hk', hk, hne .weight (by decide),
        hne .fasting (by decide),
        hne .carbs (by decide),
        hne .calories (by decide),
        hne .workouts (by decide),
        hne .steps (by decide),
        hne .sleep (by decide),
        hne .mood (by decide),
        hne .cleaning (by decide),
        hne .substances (by decide),
        hne .entertainment (by decide),
        sanitizeEntryList_skip buildHomework hbad l1 l2]
  | cleaning =>
      simp only [sanitizeTrackers, gweight, gfasting, gcarbs, gcalories, gworkouts, gsteps, gsleep, gmood, ghomework, gcleaning, gsubstances, gentertainment,
        hk', hk, hne .weight (by decide),
        hne .fasting (by decide),
        hne .carbs (by decide),
        hne .calories (by decide),
        hne .workouts (by decide),
        hne .steps (by decide),
        hne .sleep (by decide),
        hne .mood (by decide),
        hne .homework (by decide),
        hne .substances (by decide),
        hne .entertainment (by decide),
        sanitizeEntryList_skip buildChore hbad l1 l2]
  | substances =>
      simp only [sanitizeTrackers, gweight, gfasting, gcarbs, gcalories, gworkouts, gsteps, gsleep, gmood, ghomework, gcleaning, gsubstances, gentertainment,
        hk', hk, hne .weight (by decide),
        hne .fasting (by decide),
        hne .carbs (by decide),
        hne .calories (by decide),
        hne .workouts (by decide),
        hne .steps (by decide),
        hne .sleep (by decide),
        hne .mood (by decide),
        hne .homework (by decide),
        hne .cleaning (by decide),
        hne .entertainment (by decide),
        sanitizeEntryList_skip buildSubstance hbad l1 l2]
  | entertainment =>
      simp only [sanitizeTrackers, gweight, gfasting, gcarbs, gcalories, gworkouts, gsteps, gsleep, gmood, ghomework, gcleaning, gsubstances, gentertainment,
        hk', hk, hne .weight (by decide),
        hne .fasting (by decide),
        hne .carbs (by decide),
        hne .calories (by decide),
        hne .workouts (by decide),
        hne .steps (by decide),
        hne .sleep (by decide),
        hne .mood (by decide),
        hne .homework (by decide),
        hne .cleaning (by decide),
        hne .substances (by decide),
        sanitizeEntryList_skip buildEntertainment hbad l1 l2]

/-! ### Accessor lemmas for the mutation API -/

theorem Trackers.tGetSetSame (t : Trackers) (k : TrackerKey) (l : List (EntryOf k)) :
    (t.set k l).get k = l := by
  cases k <;> rfl

theorem Trackers.tGetSetNe (t : Trackers) (k k' : TrackerKey) (l : List (EntryOf k))
    (h : k' ≠ k) : (t.set k l).get k' = t.get k' := by
  cases k <;> cases k' <;> first | rfl | exact absurd rfl h

theorem MetaLists.mGetSetSame (m : MetaLists) (k : MetaListKey) (l : List MetaItem) :
    (m.set k l).get k = l := by
  cases k <;> rfl

theorem MetaLists.mGetSetNe (m : MetaLists) (k k' : MetaListKey) (l : List MetaItem)
    (h : k' ≠ k) : (m.set k l).get k' = m.get k' := by
  cases k <;> cases k' <;> first | rfl | exact absurd rfl h

theorem Trackers.set_meta_settings (d : AppData) (k : TrackerKey) (l : List (EntryOf k)) (now : String) :
    (stamp { d with trackers := d.trackers.set k l } now).meta = d.meta
      ∧ (stamp { d with trackers := d.trackers.set k l } now).settings = d.settings
      ∧ (stamp { d with trackers := d.trackers.set k l } now).version = d.version
      ∧ (stamp { d with trackers := d.trackers.set k l } now).updatedAt = now :=
  ⟨rfl, rfl, rfl, rfl⟩

theorem sanitizeTrackers_carbs_independent (ls ls' : TrackerKey → List Json)
    (hw : ls' .weight = ls .weight) (hf : ls' .fasting = ls .fasting)
    (hc : ls' .carbs = ls .carbs) (n : ℕ) :
    (sanitizeTrackers (mkTrackersObj ls') n).1.carbs
      = (sanitizeTrackers (mkTrackersObj ls) n).1.carbs := by
  have g1 : ∀ f : TrackerKey → List Json,
      getRawEntryList (mkTrackersObj f) "weight" = f .weight := fun f => rfl
  have g2 : ∀ f : TrackerKey → List Json,
      getRawEntryList (mkTrackersObj f) "fasting" = f .fasting := fun f => rfl
  have g3 : ∀ f : TrackerKey → List Json,
      getRawEntryList (mkTrackersObj f) "carbs" = f .carbs := fun f => rfl
  simp only [sanitizeTrackers, g1, g2, g3, hw, hf, hc]

/-! ### Claim theorems -/

/-- C1 counterexample: sanitize does not enforce case-insensitive name
uniqueness inside a meta list.  On an input holding two workout items with
distinct ids named "X" and "x", both survive sanitization, so the
section-3 case-insensitive uniqueness invariant fails on the output. -/
theorem sanitize_meta_name_case_collision :
    (sanitizeData caseCollisionInput "T" 0).1.meta.workouts.map MetaItem.name = ["X", "x"]
      ∧ ¬ namesCaseInsensitivelyUnique (sanitizeData caseCollisionInput "T" 0).1.meta.workouts := by
  constructor
  · rfl
  · unfold namesCaseInsensitivelyUnique
    decide

/-- C1 amended: for every input, every meta list of the sanitized document
has items whose names are non-empty after trimming and whose ids are
pairwise unique within the list; case-insensitive name uniqueness is not
established by sanitization (it is enforced only by the addMetaItem and
renameMetaItem mutations). -/
theorem sanitize_meta_list_invariant (v : Json) (now : String) (n : ℕ) (k : MetaListKey) :
    (∀ i ∈ (sanitizeData v now n).1.meta.get k, strTrim i.name = i.name ∧ i.name ≠ "")
      ∧ (((sanitizeData v now n).1.meta.get k).map MetaItem.id).Nodup := by
  obtain ⟨-, -, hm, -⟩ := sanitizeData_wf v now n
  obtain ⟨h1, h2, h3, h4, h5, h6⟩ := hm
  cases k with
  | workouts => exact ⟨fun i hi => ⟨(h1.1 i hi).1, (h1.1 i hi).2.1⟩, h1.2⟩
  | subjects => exact ⟨fun i hi => ⟨(h2.1 i hi).1, (h2.1 i hi).2.1⟩, h2.2⟩
  | children => exact ⟨fun i hi => ⟨(h3.1 i hi).1, (h3.1 i hi).2.1⟩, h3.2⟩
  | chores => exact ⟨fun i hi => ⟨(h4.1 i hi).1, (h4.1 i hi).2.1⟩, h4.2⟩
  | substances => exact ⟨fun i hi => ⟨(h5.1 i hi).1, (h5.1 i hi).2.1⟩, h5.2⟩
  | entertainment => exact ⟨fun i hi => ⟨(h6.1 i hi).1, (h6.1 i hi).2.1⟩, h6.2⟩

/-- Witness for the amended C1 theorem at a concrete input. -/
theorem sanitize_meta_list_invariant_witness :
    (∀ i ∈ (sanitizeData caseCollisionInput "T" 0).1.meta.get .workouts,
        strTrim i.name = i.name ∧ i.name ≠ "")
      ∧ (((sanitizeData caseCollisionInput "T" 0).1.meta.get .workouts).map MetaItem.id).Nodup :=
  sanitize_meta_list_invariant caseCollisionInput "T" 0 .workouts

/-- C2 counterexample: with no entries under the carbs key and one valid
entry under the deprecated entertainment key, the sanitized carbs list is
empty while the entry is reconstructed under entertainment: the sanitizer
performs no carbs-from-entertainment fallback. -/
theorem sanitize_no_carbs_from_entertainment :
    (sanitizeData carbsLegacyInput "T" 0).1.trackers.carbs = []
      ∧ (sanitizeData carbsLegacyInput "T" 0).1.trackers.entertainment
          = [{ date := "01/02/2024", activities := [], id := "e1" }] :=
  ⟨rfl, rfl⟩

/-- C2 amended: the carbs category has no legacy fallback — its sanitized
list never depends on the entertainment key of the raw document.  The
legacy rename migration lives inside the entertainment category, per
entry: when the activities array yields at least one valid activity the
deprecated entertainmentIds field is ignored entirely (no merge), and when
it yields none the activities are rebuilt from the deprecated
entertainmentIds strings, each with 0 minutes. -/
theorem carbs_no_fallback_entertainment_migrates_per_entry :
    (∀ (settings meta : Json) (ls ls' : TrackerKey → List Json) (now : String) (n : ℕ),
        (∀ j, j ≠ TrackerKey.entertainment → ls' j = ls j) →
        (sanitizeData (mkRawDoc settings meta ls') now n).1.trackers.carbs
          = (sanitizeData (mkRawDoc settings meta ls) now n).1.trackers.carbs)
    ∧ (∀ (acts ids1 ids2 : Json) (b : BaseEntry),
        0 < (parseActivities acts).length →
        buildEntertainment (.obj [("activities", acts), ("entertainmentIds", ids1)]) b
          = buildEntertainment (.obj [("activities", acts), ("entertainmentIds", ids2)]) b)
    ∧ (∀ (acts ids : Json) (b : BaseEntry),
        (parseActivities acts).length = 0 →
        (buildEntertainment (.obj [("activities", acts), ("entertainmentIds", ids)]) b).activities
          = (parseStringList ids).map (fun mid => { metaId := mid, minutes := 0 })) := by
  refine ⟨?_, ?_, ?_⟩
  · intro settings meta ls ls' now n hne
    rw [sanitizeData_mkRawDoc, sanitizeData_mkRawDoc]
    exact sanitizeTrackers_carbs_independent ls ls'
      (hne .weight (by decide)) (hne .fasting (by decide)) (hne .carbs (by decide)) _
  · intro acts ids1 ids2 b hpos
    have h1 : (Json.obj [("activities", acts), ("entertainmentIds", ids1)]).get "activities"
        = acts := rfl
    have h2 : (Json.obj [("activities", acts), ("entertainmentIds", ids2)]).get "activities"
        = acts := rfl
    simp only [buildEntertainment, h1, h2]
    rw [if_pos (by simpa using hpos), if_pos (by simpa using hpos)]
  · intro acts ids b hzero
    have h1 : (Json.obj [("activities", acts), ("entertainmentIds", ids)]).get "activities"
        = acts := rfl
    have h2 : (Json.obj [("activities", acts), ("entertainmentIds", ids)]).get "entertainmentIds"
        = ids := rfl
    simp only [buildEntertainment, h1, h2]
    rw [if_neg (by simp [hzero])]

/-- Witness for the amended C2 theorem at concrete inputs. -/
theorem carbs_no_fallback_witness :
    (sanitizeData (mkRawDoc .null .null
        (fun j => if j = TrackerKey.entertainment then
          [.obj [("id", .str "e1"), ("date", .str "01/02/2024"), ("carbs", .num 42)]] else []))
        "T" 0).1.trackers.carbs
      = (sanitizeData (mkRawDoc .null .null (fun _ => [])) "T" 0).1.trackers.carbs := by
  have h := carbs_no_fallback_entertainment_migrates_per_entry.1 .null .null
    (fun _ => [])
    (fun j => if j = TrackerKey.entertainment then
      [.obj [("id", .str "e1"), ("date", .str "01/02/2024"), ("carbs", .num 42)]] else [])
    "T" 0
    (fun j hj => if_neg hj)
  exact h

/-- C3: sanitize is idempotent on its own output: re-sanitizing the encoded
image of a sanitized document reproduces it exactly, up to the freshly
generated updatedAt timestamp.  In particular the second pass draws no
fresh ids (the supply counter m is returned untouched) and every id, entry
list, meta list and settings value assigned by the first pass is preserved
unchanged. -/
theorem sanitize_idempotent (v : Json) (now1 now2 : String) (n m : ℕ) :
    sanitizeData (encodeAppData (sanitizeData v now1 n).1) now2 m
      = ({ (sanitizeData v now1 n).1 with updatedAt := now2 }, m) :=
  sanitizeData_encode _ (sanitizeData_wf v now1 n) now2 m

/-- C5: sanitization filters corrupt tracker entries individually, never
the whole document: inserting a raw entry whose base shape is not an
object or whose date is not a regex-valid display-date string anywhere into
one category's raw list leaves the entire sanitized document unchanged —
every other entry of that list and every other category are reconstructed
and retained exactly as without it. -/
theorem sanitize_drops_only_invalid_entries (settings meta : Json)
    (ls ls' : TrackerKey → List Json) (k : TrackerKey) (bad : Json) (l1 l2 : List Json)
    (now : String) (n : ℕ)
    (hbad : bad.isRecord = false ∨ parseDate (bad.get "date") = none)
    (hne : ∀ j, j ≠ k → ls' j = ls j)
    (hk' : ls' k = l1 ++ bad :: l2) (hk : ls k = l1 ++ l2) :
    sanitizeData (mkRawDoc settings meta ls') now n
      = sanitizeData (mkRawDoc settings meta ls) now n := by
  have hbad' : ∀ m, parseBaseEntry bad m = none := fun m => parseBaseEntry_invalid m hbad
  rw [sanitizeData_mkRawDoc, sanitizeData_mkRawDoc,
    sanitizeTrackers_skip ls ls' k bad l1 l2 hbad' hne hk' hk]

/-- Witness for the C5 theorem: a date-less number inserted into the weight
list of a concrete document is dropped and nothing else changes. -/
theorem sanitize_drops_only_invalid_entries_witness :
    sanitizeData (mkRawDoc .null .null
        (fun j => if j = TrackerKey.weight then
          [.obj [("id", .str "w1"), ("date", .str "01/15/2024"), ("weightLbs", .num 180)],
           .num 5] else [])) "T" 0
      = sanitizeData (mkRawDoc .null .null
        (fun j => if j = TrackerKey.weight then
          [.obj [("id", .str "w1"), ("date", .str "01/15/2024"), ("weightLbs", .num 180)]] else []))
        "T" 0 :=
  sanitize_drops_only_invalid_entries .null .null
    (fun j => if j = TrackerKey.weight then
      [.obj [("id", .str "w1"), ("date", .str "01/15/2024"), ("weightLbs", .num 180)]] else [])
    (fun j => if j = TrackerKey.weight then
      [.obj [("id", .str "w1"), ("date", .str "01/15/2024"), ("weightLbs", .num 180)],
       .num 5] else [])
    .weight (.num 5)
    [.obj [("id", .str "w1"), ("date", .str "01/15/2024"), ("weightLbs", .num 180)]] []
    "T" 0 (Or.inl rfl) (fun j hj => by simp [hj]) (by simp) (by simp)

theorem Trackers.set_get_self (t : Trackers) (k : TrackerKey) : t.set k (t.get k) = t := by
  cases t
  cases k <;> rfl

/-- C6: addTrackerEntry is a no-op when the payload date is not a valid
display date; on a valid date it prepends the payload under a fresh id to
exactly that category's list, leaves every other tracker category, the
meta lists and the settings unchanged, and carries the fresh updatedAt
timestamp. -/
theorem addTrackerEntry_spec (d : AppData) (k : TrackerKey) (p : PayloadOf k) (fresh now : String) :
    (isDisplayDate (payloadDate k p) = false → addTrackerEntry d k p fresh now = d)
    ∧ (isDisplayDate (payloadDate k p) = true →
        (addTrackerEntry d k p fresh now).trackers.get k = mkEntry k fresh p :: d.trackers.get k
        ∧ (∀ k', k' ≠ k → (addTrackerEntry d k p fresh now).trackers.get k' = d.trackers.get k')
        ∧ (addTrackerEntry d k p fresh now).meta = d.meta
        ∧ (addTrackerEntry d k p fresh now).settings = d.settings
        ∧ (addTrackerEntry d k p fresh now).version = d.version
        ∧ (addTrackerEntry d k p fresh now).updatedAt = now) := by
  constructor
  · intro h
    unfold addTrackerEntry
    rw [h]
    simp
  · intro h
    unfold addTrackerEntry
    rw [if_pos h]
    exact ⟨Trackers.tGetSetSame _ _ _, fun k' hk' => Trackers.tGetSetNe _ _ _ _ hk',
      rfl, rfl, rfl, rfl⟩

/-- Witness for the C6 theorem: a valid date is prepended, an invalid
month (99) makes the operation a no-op. -/
theorem addTrackerEntry_spec_witness :
    ((addTrackerEntry (createDefaultData "t0") .weight ⟨"01/15/2024", 180⟩ "id0" "t1").trackers.get
        .weight = mkEntry .weight "id0" ⟨"01/15/2024", 180⟩
          :: (createDefaultData "t0").trackers.get .weight)
    ∧ addTrackerEntry (createDefaultData "t0") .fasting ⟨"99/99/9999", 1⟩ "id0" "t1"
        = createDefaultData "t0" :=
  ⟨((addTrackerEntry_spec (createDefaultData "t0") .weight ⟨"01/15/2024", 180⟩ "id0" "t1").2
      (by decide)).1,
   (addTrackerEntry_spec (createDefaultData "t0") .fasting ⟨"99/99/9999", 1⟩ "id0" "t1").1
      (by decide)⟩

/-- C7: removeTrackerEntry filters exactly the entries of the addressed
category whose id matches, keeps every other entry of that category in
order and every other category untouched, and leaves the document (apart
from the unconditional updatedAt stamp) unchanged when no entry matches;
adding a weight entry to an empty document and removing it by that id
yields zero weight entries. -/
theorem removeTrackerEntry_spec (d : AppData) (k : TrackerKey) (eid now : String) :
    ((removeTrackerEntry d k eid now).trackers.get k
        = (d.trackers.get k).filter (fun e => entryId k e ≠ eid))
    ∧ (∀ k', k' ≠ k → (removeTrackerEntry d k eid now).trackers.get k' = d.trackers.get k')
    ∧ (removeTrackerEntry d k eid now).meta = d.meta
    ∧ (removeTrackerEntry d k eid now).settings = d.settings
    ∧ (removeTrackerEntry d k eid now).updatedAt = now
    ∧ ((∀ e ∈ d.trackers.get k, entryId k e ≠ eid) →
        removeTrackerEntry d k eid now = stamp d now)
    ∧ (∀ t0 t1 t2 fid : String,
        (removeTrackerEntry
          (addTrackerEntry (createDefaultData t0) .weight ⟨"01/15/2024", 180⟩ fid t1)
          .weight fid t2).trackers.get .weight = []) := by
  refine ⟨Trackers.tGetSetSame _ _ _, fun k' hk' => Trackers.tGetSetNe _ _ _ _ hk',
    rfl, rfl, rfl, ?_, ?_⟩
  · intro h
    unfold removeTrackerEntry
    rw [List.filter_eq_self.mpr (fun e he => by simpa using h e he), Trackers.set_get_self]
  · intro t0 t1 t2 fid
    have hadd : (addTrackerEntry (createDefaultData t0) .weight ⟨"01/15/2024", 180⟩ fid t1).trackers.get
        .weight = [mkEntry .weight fid ⟨"01/15/2024", 180⟩] := by
      unfold addTrackerEntry
      rw [if_pos (by decide)]
      simp only [stamp, Trackers.tGetSetSame]
      rfl
    unfold removeTrackerEntry
    simp only [stamp, Trackers.tGetSetSame, hadd]
    simp [entryId, mkEntry]

/-- Witness for the C7 theorem at a concrete document and id. -/
theorem removeTrackerEntry_spec_witness :
    removeTrackerEntry (createDefaultData "t0") .weight "nope" "t1"
      = stamp (createDefaultData "t0") "t1" :=
  (removeTrackerEntry_spec (createDefaultData "t0") .weight "nope" "t1").2.2.2.2.2.1
    (fun e he => by simp [createDefaultData, Trackers.get] at he)

/-- C8: clearTrackerEntriesBefore is a no-op returning 0 on an invalid
cutoff date; on a valid cutoff every tracker category keeps exactly the
entries whose ISO-converted date is at least the cutoff's ISO date
(the cutoff day itself is kept, strictly earlier entries are removed) and
the returned count is the total number of entries removed across all
categories. -/
theorem clearTrackerEntriesBefore_spec (d : AppData) (cutoff now : String) :
    (isDisplayDate cutoff = false → clearTrackerEntriesBefore d cutoff now = (d, 0))
    ∧ (isDisplayDate cutoff = true →
        (∀ k, (clearTrackerEntriesBefore d cutoff now).1.trackers.get k
            = (d.trackers.get k).filter
                (fun e => !strLt (displayDateToIso (entryDate k e)) (displayDateToIso cutoff)))
        ∧ (clearTrackerEntriesBefore d cutoff now).2
            = (trackerKeyList.map (fun k => (d.trackers.get k).length
                - ((d.trackers.get k).filter
                    (fun e => !strLt (displayDateToIso (entryDate k e)) (displayDateToIso cutoff))).length)).sum) := by
  constructor
  · intro h
    unfold clearTrackerEntriesBefore
    rw [h]
    simp
  · intro h
    unfold clearTrackerEntriesBefore
    rw [h]
    simp only [Bool.not_true, Bool.false_eq_true, if_false]
    split_ifs with hrc
    · have hall : ∀ k, (d.trackers.get k).length
          - (remainingAfterCutoff d (displayDateToIso cutoff) k).length = 0 := by
        intro k
        have hk : k ∈ trackerKeyList := by cases k <;> simp [trackerKeyList]
        exact List.sum_eq_zero_iff.mp hrc _ (List.mem_map_of_mem _ hk)
      have hfix : ∀ k, (d.trackers.get k).filter
          (fun e => !strLt (displayDateToIso (entryDate k e)) (displayDateToIso cutoff))
            = d.trackers.get k := by
        intro k
        have h0 := hall k
        unfold remainingAfterCutoff at h0
        have hsub := List.filter_sublist
          (p := fun e => !strLt (displayDateToIso (entryDate k e)) (displayDateToIso cutoff))
          (d.trackers.get k)
        have hle := hsub.length_le
        exact hsub.eq_of_length (by omega)
      refine ⟨fun k => (hfix k).symm, ?_⟩
      show (0 : ℕ) = _
      rw [← hrc]
      unfold remainingAfterCutoff
      rfl
    · refine ⟨fun k => ?_, ?_⟩
      · cases k <;> rfl
      · unfold remainingAfterCutoff
        rfl

/-- Witness for the C8 theorem: cutoff 01/02/2024 on entries dated
01/01, 01/02, 01/03 keeps the 01/02 and 01/03 entries and reports one
removal. -/
theorem clearTrackerEntriesBefore_spec_witness :
    (clearTrackerEntriesBefore clearExampleDoc "01/02/2024" "t1").1.trackers.get .weight
      = [{ date := "01/02/2024", weightLbs := 181, id := "b" },
         { date := "01/03/2024", weightLbs := 182, id := "c" }]
    ∧ (clearTrackerEntriesBefore clearExampleDoc "01/02/2024" "t1").2 = 1 := by
  have h := (clearTrackerEntriesBefore_spec clearExampleDoc "01/02/2024" "t1").2 (by decide)
  constructor
  · rw [h.1 .weight]
    decide
  · rw [h.2]
    decide

/-- C4: removeMetaItem succeeds exactly when the usage count over every
tracker category that can reference the list is 0 and the item exists:
with at least one referencing entry it returns ok = false with a reason
and the document is completely unchanged (not even re-stamped); with usage
count 0 and the item present it returns ok = true and removes exactly that
item, leaving the other meta lists, the trackers and the settings
untouched; with usage count 0 and the item absent it refuses and leaves
the document unchanged.  A removal refused for usage succeeds once the
referencing entries are gone, by the zero-usage branch. -/
theorem removeMetaItem_spec (d : AppData) (k : MetaListKey) (itemId now : String) :
    (getMetaItemUsageCount d k itemId > 0 →
        removeMetaItem d k itemId now
          = (d, { ok := false,
                  reason := some "This item is used by existing entries and cannot be deleted." }))
    ∧ (getMetaItemUsageCount d k itemId = 0 → itemId ∈ (d.meta.get k).map MetaItem.id →
        (removeMetaItem d k itemId now).2.ok = true
        ∧ (removeMetaItem d k itemId now).1.meta.get k
            = (d.meta.get k).filter (fun i => i.id ≠ itemId)
        ∧ itemId ∉ ((removeMetaItem d k itemId now).1.meta.get k).map MetaItem.id
        ∧ (∀ k', k' ≠ k → (removeMetaItem d k itemId now).1.meta.get k' = d.meta.get k')
        ∧ (removeMetaItem d k itemId now).1.trackers = d.trackers
        ∧ (removeMetaItem d k itemId now).1.settings = d.settings
        ∧ (removeMetaItem d k itemId now).1.updatedAt = now)
    ∧ (getMetaItemUsageCount d k itemId = 0 → itemId ∉ (d.meta.get k).map MetaItem.id →
        removeMetaItem d k itemId now = (d, { ok := false, reason := some "Item was not found." })) := by
  refine ⟨?_, ?_, ?_⟩
  · intro hpos
    unfold removeMetaItem
    rw [if_pos hpos]
  · intro h0 hmem
    have hlt : ((d.meta.get k).filter (fun i => i.id ≠ itemId)).length
        < (d.meta.get k).length := by
      obtain ⟨i, hi, hid⟩ := List.mem_map.mp hmem
      exact List.length_filter_lt_length_iff_exists.mpr ⟨i, hi, by simp [hid]⟩
    unfold removeMetaItem
    rw [if_neg (by omega), if_neg (Nat.ne_of_lt hlt)]
    refine ⟨rfl, MetaLists.mGetSetSame _ _ _, ?_,
      fun k' hk' => MetaLists.mGetSetNe _ _ _ _ hk', rfl, rfl, rfl⟩
    simp only [stamp, MetaLists.mGetSetSame]
    intro hin
    obtain ⟨i, hi, hid⟩ := List.mem_map.mp hin
    have := List.of_mem_filter hi
    simp at this
    exact this hid
  · intro h0 hnmem
    unfold removeMetaItem
    have heq : (d.meta.get k).filter (fun i => i.id ≠ itemId) = d.meta.get k := by
      apply List.filter_eq_self.mpr
      intro i hi
      simp
      intro hcontra
      exact hnmem (hcontra ▸ List.mem_map_of_mem MetaItem.id hi)
    rw [if_neg (by omega), if_pos (by rw [heq])]

/-- Witness for the C4 theorem: the substance item of usageExampleDoc is
protected while its referencing entry exists and removable after that
entry is removed. -/
theorem removeMetaItem_spec_witness :
    (removeMetaItem usageExampleDoc .substances "s1" "t1"
      = (usageExampleDoc,
         { ok := false,
           reason := some "This item is used by existing entries and cannot be deleted." }))
    ∧ ((removeMetaItem (removeTrackerEntry usageExampleDoc .substances "e1" "t1")
          .substances "s1" "t2").2.ok = true)
    ∧ ((removeMetaItem (removeTrackerEntry usageExampleDoc .substances "e1" "t1")
          .substances "s1" "t2").1.meta.substances = []) := by
  refine ⟨(removeMetaItem_spec usageExampleDoc .substances "s1" "t1").1 (by decide), ?_, ?_⟩
  · have h := ((removeMetaItem_spec (removeTrackerEntry usageExampleDoc .substances "e1" "t1")
        .substances "s1" "t2").2.1)
    apply ((removeMetaItem_spec (removeTrackerEntry usageExampleDoc .substances "e1" "t1")
        .substances "s1" "t2").2.1 ?_ ?_).1
    · decide
    · decide
  · have h := ((removeMetaItem_spec (removeTrackerEntry usageExampleDoc .substances "e1" "t1")
        .substances "s1" "t2").2.1 (by decide) (by decide)).2.1
    rw [show (removeMetaItem (removeTrackerEntry usageExampleDoc .substances "e1" "t1")
        .substances "s1" "t2").1.meta.substances
      = (removeMetaItem (removeTrackerEntry usageExampleDoc .substances "e1" "t1")
        .substances "s1" "t2").1.meta.get .substances from rfl, h]
    decide

/-- C9: the weight-trend ordinary-least-squares regression is total on its
degenerate inputs (numbers modelled by rationals, under which the
Number.isFinite guards of the source hold identically): fewer than two
points gives null, a non-positive slope denominator gives null, and in
particular a single sample gives null; no division is reached in these
cases. -/
theorem computeRegressionLossPerWeek_degenerate (points : List RegressionPoint) :
    (points.length < 2 → computeRegressionLossPerWeek points = none)
    ∧ (regressionDenominator points ≤ 0 → computeRegressionLossPerWeek points = none)
    ∧ (∀ p : RegressionPoint, computeRegressionLossPerWeek [p] = none) := by
  refine ⟨?_, ?_, ?_⟩
  · intro h
    unfold computeRegressionLossPerWeek
    rw [if_pos h]
  · intro h
    unfold computeRegressionLossPerWeek
    by_cases h1 : points.length < 2
    · rw [if_pos h1]
    · rw [if_neg h1]
      dsimp only
      rw [if_pos h]
  · intro p
    unfold computeRegressionLossPerWeek
    rw [if_pos (by simp)]

/-- Witness for the C9 theorem: one sample, and two samples with equal
dates (zero denominator), both give null. -/
theorem computeRegressionLossPerWeek_degenerate_witness :
    computeRegressionLossPerWeek [{ dateMs := 0, weight := 100 }] = none
    ∧ computeRegressionLossPerWeek
        [{ dateMs := 0, weight := 100 }, { dateMs := 0, weight := 90 }] = none := by
  constructor
  · exact (computeRegressionLossPerWeek_degenerate
      [{ dateMs := 0, weight := 100 }]).2.2 { dateMs := 0, weight := 100 }
  · refine (computeRegressionLossPerWeek_degenerate
      [{ dateMs := 0, weight := 100 }, { dateMs := 0, weight := 90 }]).2.1 ?_
    unfold regressionDenominator regressionSamples
    norm_num

/-- C10: addTrackerEntry validates nothing but the date: any payload whose
date is a regex-valid display date is stored verbatim under the fresh id,
including a negative out-of-range weight and homework references to a
subject and student id absent from the (empty) meta lists; the section-3
range and reference invariants are not maintained by the mutation API. -/
theorem addTrackerEntry_no_field_validation :
    (∀ (d : AppData) (k : TrackerKey) (p : PayloadOf k) (fresh now : String),
        isDisplayDate (payloadDate k p) = true →
        (addTrackerEntry d k p fresh now).trackers.get k = mkEntry k fresh p :: d.trackers.get k)
    ∧ ((addTrackerEntry (createDefaultData "t0") .weight ⟨"01/15/2024", -5⟩ "i0" "t1").trackers.weight
        = [{ date := "01/15/2024", weightLbs := -5, id := "i0" }])
    ∧ ¬ (0 ≤ (-5 : ℚ))
    ∧ ((addTrackerEntry (createDefaultData "t0") .homework
          ⟨"01/15/2024", "ghost-subject", "ghost-child", 30, ""⟩ "i1" "t1").trackers.homework
        = [{ date := "01/15/2024", subjectId := "ghost-subject", childId := "ghost-child",
             minutes := 30, notes := "", id := "i1" }])
    ∧ (createDefaultData "t0").meta.subjects = []
    ∧ (createDefaultData "t0").meta.children = [] := by
  refine ⟨?_, ?_, by norm_num, ?_, rfl, rfl⟩
  · intro d k p fresh now h
    unfold addTrackerEntry
    rw [if_pos h]
    exact Trackers.tGetSetSame _ _ _
  · unfold addTrackerEntry
    rw [if_pos (by decide)]
    rfl
  · unfold addTrackerEntry
    rw [if_pos (by decide)]
    rfl

/-- Witness for the C10 theorem at a concrete category and payload. -/
theorem addTrackerEntry_no_field_validation_witness :
    (addTrackerEntry (createDefaultData "t0") .steps ⟨"02/01/2024", 500⟩ "i2" "t1").trackers.get
        .steps = mkEntry .steps "i2" ⟨"02/01/2024", 500⟩
          :: (createDefaultData "t0").trackers.get .steps :=
  addTrackerEntry_no_field_validation.1 (createDefaultData "t0") .steps ⟨"02/01/2024", 500⟩
    "i2" "t1" (by decide)
